import Mathlib

/-!
Verification of the three-phase market-making reconciliation cycle implemented by
the method SimplePMM.on_tick in
scripts/multiple_pairs_on_one_exchange_using_external_source.py.

The embedding models one tick of the strategy.  Prices and timestamps are exact
rationals (the source performs its arithmetic in Python Decimal; the spec's
numeric-semantics section mandates exact decimal arithmetic, so ℚ is the
faithful idealisation).  Python exceptions that the source lets escape from the
tick (KeyError on a missing reference-feed entry, ValueError from unpacking a
malformed pair name, Decimal division by zero, json.JSONDecodeError) are
modelled by an error value that aborts the remaining processing of the cycle,
preserving the effects already performed, exactly as an exception thrown from
the middle of the Python loop would.  All the calls to time.time() inside one
tick are modelled by the single cycle timestamp `now`.

Mathlib's Rat.add, Rat.mul, Rat.sub and Rat.inv are marked irreducible, which
prevents kernel evaluation of concrete cycles.  The model therefore computes
with the wrappers qadd, qsub, qmul and qdiv below, each proved equal to the
corresponding field operation on ℚ (qadd_eq, qsub_eq, qmul_eq, qdiv_eq), so
that every definition evaluates by decide and every general theorem can be
read through the ordinary arithmetic on ℚ.
-/

set_option maxRecDepth 8192

namespace SimplePMM

/-- Addition on ℚ in kernel-reducible form; equals a + b (qadd_eq). -/
def qadd (a b : ℚ) : ℚ := mkRat (a.num * b.den + b.num * a.den) (a.den * b.den)

/-- Subtraction on ℚ in kernel-reducible form; equals a - b (qsub_eq). -/
def qsub (a b : ℚ) : ℚ := mkRat (a.num * b.den - b.num * a.den) (a.den * b.den)

/-- Multiplication on ℚ in kernel-reducible form; equals a * b (qmul_eq). -/
def qmul (a b : ℚ) : ℚ := mkRat (a.num * b.num) (a.den * b.den)

/-- Division on ℚ in kernel-reducible form; equals a / b (qdiv_eq). -/
def qdiv (a b : ℚ) : ℚ := Rat.divInt (a.num * b.den) (a.den * b.num)

theorem qadd_eq (a b : ℚ) : qadd a b = a + b := (Rat.add_def' a b).symm

theorem qsub_eq (a b : ℚ) : qsub a b = a - b := (Rat.sub_def' a b).symm

theorem qmul_eq (a b : ℚ) : qmul a b = a * b := by
  rw [qmul, Rat.mul_def, Rat.normalize_eq_mkRat]

theorem qdiv_eq (a b : ℚ) : qdiv a b = a / b := by
  rcases eq_or_ne b 0 with hb | hb
  · subst hb
    show Rat.divInt (a.num * ((0:ℚ)).den) (a.den * ((0:ℚ)).num) = a / 0
    norm_num
  · have hbn : b.num ≠ 0 := Rat.num_ne_zero.mpr hb
    have had : (a.den : ℤ) ≠ 0 := Int.natCast_ne_zero.mpr a.den_nz
    rw [qdiv, ← Rat.divInt_mul_divInt _ _ had hbn, Rat.num_divInt_den,
      ← Rat.inv_def, Rat.div_def]

/-- Per-side configuration ratios, copied from the class attributes of SimplePMM
(source lines 58-66); buy_place_ratio is the literal 0.0050. -/
def buy_place_ratio : ℚ := mkRat 50 10000

/-- Maximum distance from top of book for placing a buy: 0.02 (source line 59). -/
def buy_place_max_distance : ℚ := mkRat 2 100

/-- Minimum distance from reference price for keeping a buy: 0.0025
(source line 60). -/
def buy_cancel_unprofitable_ratio : ℚ := mkRat 25 10000

/-- Maximum distance from top of book for keeping a buy: 0.0300 (source line 61). -/
def buy_cancel_outbid_ratio : ℚ := mkRat 300 10000

/-- Minimum distance from reference price for placing a sell: 0.0005
(source line 63). -/
def sell_place_ratio : ℚ := mkRat 5 10000

/-- Maximum distance from top of book for placing a sell: 0.02 (source line 64). -/
def sell_place_max_distance : ℚ := mkRat 2 100

/-- Minimum distance from reference price for keeping a sell: -0.0005
(source line 65). -/
def sell_cancel_unprofitable_ratio : ℚ := mkRat (-5) 10000

/-- Maximum distance from top of book for keeping a sell: 0.0300 (source line 66). -/
def sell_cancel_outbid_ratio : ℚ := mkRat 300 10000

/-- Debounce delay between orders on one trading pair: 5 seconds
(source line 71). -/
def time_between_orders_for_trading_pair : ℚ := 5

/-- Order size adjustment multiplier: 1.10 (source line 136). -/
def size_multiple : ℚ := mkRat 110 100

/-- The quote_curs dictionary (source lines 117-130): size_in_quote_units per
quote currency (5.0, 5.0, 0.000138, 0.00178); a lookup of any other key raises
KeyError in the source. -/
def quote_curs (quote_cur : String) : Option ℚ :=
  if quote_cur = "USD" then some 5
  else if quote_cur = "USDT" then some 5
  else if quote_cur = "BTC" then some (mkRat 138 1000000)
  else if quote_cur = "ETH" then some (mkRat 178 100000)
  else none

/-- An open limit order as seen in the per-pair order snapshot
(self.orders[trading_pair][is_buy], keyed by client_order_id). -/
structure OpenOrder where
  client_order_id : String
  price : ℚ
deriving DecidableEq

/-- An accepted order proposal (hummingbot OrderCandidate restricted to the
fields the script sets: trading pair, side, price, amount; is_maker and LIMIT
are constant). -/
structure Candidate where
  trading_pair : String
  is_buy : Bool
  price : ℚ
  amount : ℚ
deriving DecidableEq

/-- The Python exceptions that can escape from the body of on_tick. -/
inductive Err where
  | key_error (key : String)
  | json_decode_error
  | value_error
  | division_by_zero
deriving DecidableEq

/-- The cached reference-feed payload at the start of the cycle.
json.loads raises TypeError when the cached value is not a string (caught at
source lines 191-196), json.JSONDecodeError when it is a malformed string
(uncaught), and otherwise yields the bid-ask dictionary. -/
inductive Payload where
  | not_a_string
  | bad_json
  | parsed (bid_ask_markets : String → Option (ℚ × ℚ))

/-- The persistent per-pair rate-limit state (source lines 154-159). -/
structure St where
  last_cancel_time : String → ℚ
  last_order_time : String → ℚ

/-- The state as initialised at class creation: last_cancel_time zero for every
pair, last_order_time the startup wall-clock time t0 (source lines 154-159). -/
def init_state (t0 : ℚ) : St :=
  ⟨fun _ => 0, fun _ => t0⟩

/-- External inputs of one tick: the pair iteration order, the feed status, the
cached payload, the order-book snapshot (source lines 213-217), the open-order
snapshot (source lines 202-207), available balances per currency and the cycle
timestamp. -/
structure Inputs where
  pairs : List String
  feed_started : Bool
  payload : Payload
  orderbook_bid : String → ℚ
  orderbook_ask : String → ℚ
  buy_orders : String → List OpenOrder
  sell_orders : String → List OpenOrder
  available_balance : String → ℚ
  now : ℚ

/-- One cancellation loop over the open orders of one side of one pair
(source lines 255-260, 261-266, 307-312, 313-318): every order satisfying the
cancel condition is cancelled, and each cancellation records
last_cancel_time[pair] = now. -/
def cancel_loop (pred : OpenOrder → Bool) (p : String) (now : ℚ) :
    List OpenOrder → St → St × List (String × String)
  | [], st => (st, [])
  | o :: os, st =>
    if pred o then
      let st1 : St :=
        { st with last_cancel_time := fun q => if q = p then now else st.last_cancel_time q }
      let r := cancel_loop pred p now os st1
      (r.1, (p, o.client_order_id) :: r.2)
    else cancel_loop pred p now os st

/-- Phase 1 body for one trading pair (source lines 238-266): look up the
reference entry (KeyError when absent), skip the pair when the reference bid or
ask is non-positive, otherwise cancel the buys with
price > ref_price_buy * (1 - buy_cancel_unprofitable_ratio) and the sells with
price < ref_price_sell * (1 + sell_cancel_unprofitable_ratio). -/
def phase1_pair (inp : Inputs) (f : String → Option (ℚ × ℚ)) (st : St) (p : String) :
    Except Err (St × List (String × String)) :=
  match f p with
  | none => .error (.key_error p)
  | some (ref_price_buy, ref_price_sell) =>
    if ref_price_buy ≤ 0 ∨ ref_price_sell ≤ 0 then .ok (st, [])
    else
      let r1 := cancel_loop
        (fun o => decide (o.price > qmul ref_price_buy (qsub 1 buy_cancel_unprofitable_ratio)))
        p inp.now (inp.buy_orders p) st
      let r2 := cancel_loop
        (fun o => decide (o.price < qmul ref_price_sell (qadd 1 sell_cancel_unprofitable_ratio)))
        p inp.now (inp.sell_orders p) r1.1
      .ok (r2.1, r1.2 ++ r2.2)

/-- Phase 2 body for one trading pair (source lines 290-318): same shape as
Phase 1, cancelling the buys with
price < orderbook_bid * (1 - buy_cancel_outbid_ratio) and the sells with
price > orderbook_ask * (1 + sell_cancel_outbid_ratio). -/
def phase2_pair (inp : Inputs) (f : String → Option (ℚ × ℚ)) (st : St) (p : String) :
    Except Err (St × List (String × String)) :=
  match f p with
  | none => .error (.key_error p)
  | some (ref_price_buy, ref_price_sell) =>
    if ref_price_buy ≤ 0 ∨ ref_price_sell ≤ 0 then .ok (st, [])
    else
      let r1 := cancel_loop
        (fun o => decide (o.price < qmul (inp.orderbook_bid p) (qsub 1 buy_cancel_outbid_ratio)))
        p inp.now (inp.buy_orders p) st
      let r2 := cancel_loop
        (fun o => decide (o.price > qmul (inp.orderbook_ask p) (qadd 1 sell_cancel_outbid_ratio)))
        p inp.now (inp.sell_orders p) r1.1
      .ok (r2.1, r1.2 ++ r2.2)

/-- Python str.split("-") on the character list of a pair name. -/
def split_on_dash : List Char → List (List Char)
  | [] => [[]]
  | c :: cs =>
    if c = '-' then [] :: split_on_dash cs
    else
      match split_on_dash cs with
      | [] => [[c]]
      | h :: t => (c :: h) :: t

/-- The split of trading_pair on the dash (source line 395); unpacking into
exactly two names raises ValueError unless the result has exactly two parts. -/
def split_pair (p : String) : List String :=
  (split_on_dash p.toList).map (fun l => String.mk l)

/-- The Phase 3 buy price selection (source lines 413-416): the midpoint of
buy_price_max and the book bid when the order would become the new best bid,
else buy_price_max. -/
def buy_price_sel (buy_price_max orderbook_bid : ℚ) : ℚ :=
  if orderbook_bid < buy_price_max then qdiv (qadd buy_price_max orderbook_bid) 2
  else buy_price_max

/-- The Phase 3 sell price selection (source lines 450-453): the midpoint of
sell_price_min and the book ask when the order would become the new best ask,
else sell_price_min. -/
def sell_price_sel (sell_price_min orderbook_ask : ℚ) : ℚ :=
  if orderbook_ask > sell_price_min then qdiv (qadd sell_price_min orderbook_ask) 2
  else sell_price_min

/-- Phase 3 buy side for one pair (source lines 397-433): only when no open buy
order exists and the pair is not "IRIS-BTC"; skip for distance when the book bid
exceeds buy_price_max * (1 + buy_place_max_distance), otherwise select the
price (the midpoint when the order would become the new best bid), compute the
size in base units (Decimal division by a zero price raises), and accept the
candidate when the amount is below 99% of the available quote balance in base
units.  Returns (state, accepted candidates, distance skips, balance skips). -/
def phase3_buy (inp : Inputs) (st : St) (p quote_cur : String) (buy_price_max : ℚ) :
    Except Err (St × List Candidate × ℕ × ℕ) :=
  if (inp.buy_orders p).length = 0 ∧ p ≠ "IRIS-BTC" then
    if inp.orderbook_bid p > qmul buy_price_max (qadd 1 buy_place_max_distance) then
      .ok (st, [], 1, 0)
    else
      let buy_price : ℚ := buy_price_sel buy_price_max (inp.orderbook_bid p)
      match quote_curs quote_cur with
      | none => .error (.key_error quote_cur)
      | some size_in_quote_units =>
        if buy_price = 0 then .error .division_by_zero
        else
          let order_amount := qdiv (qmul size_in_quote_units size_multiple) buy_price
          let available_to_buy_in_quote := inp.available_balance quote_cur
          let available_to_buy_in_base := qdiv available_to_buy_in_quote buy_price
          if order_amount < qmul available_to_buy_in_base (mkRat 99 100) then
            .ok ({ st with
                   last_order_time := fun q => if q = p then inp.now else st.last_order_time q },
                 [⟨p, true, buy_price, order_amount⟩], 0, 0)
          else .ok (st, [], 0, 1)
  else .ok (st, [], 0, 0)

/-- Phase 3 sell side for one pair (source lines 435-470): only when no open
sell order exists; skip for distance when the book ask is below
sell_price_min * (1 - sell_place_max_distance), otherwise select the price (the
midpoint when the order would become the new best ask), size the order as the
full available base balance and accept it when it reaches
size_in_quote_units. -/
def phase3_sell (inp : Inputs) (st : St) (p base_cur quote_cur : String) (sell_price_min : ℚ) :
    Except Err (St × List Candidate × ℕ × ℕ) :=
  if (inp.sell_orders p).length = 0 then
    if inp.orderbook_ask p < qmul sell_price_min (qsub 1 sell_place_max_distance) then
      .ok (st, [], 1, 0)
    else
      let sell_price : ℚ := sell_price_sel sell_price_min (inp.orderbook_ask p)
      let available_to_sell_in_base := inp.available_balance base_cur
      let order_amount := available_to_sell_in_base
      match quote_curs quote_cur with
      | none => .error (.key_error quote_cur)
      | some size_in_quote_units =>
        if order_amount ≥ size_in_quote_units then
          .ok ({ st with
                 last_order_time := fun q => if q = p then inp.now else st.last_order_time q },
               [⟨p, false, sell_price, order_amount⟩], 0, 0)
        else .ok (st, [], 0, 1)
  else .ok (st, [], 0, 0)

/-- Per-pair Phase 3 effects: accepted proposals and the four skip counters
(source lines 332-337; skip_proposal_for_cancels is initialised but never
incremented in the source and is omitted). -/
structure P3Eff where
  proposals : List Candidate
  skip_count : ℕ
  skip_time : ℕ
  skip_distance : ℕ
  skip_balance : ℕ
deriving DecidableEq

/-- Phase 3 body for one trading pair (source lines 344-476): count cap first
(source lines 349-351), then the per-pair time debounce (source lines 361-363),
then the reference lookup (KeyError when absent), the numeric/NaN guards of
source lines 384-393 (vacuous over exact rationals), the pair-name split, and
the two sides.  buy_price_max = ref_price_buy * (1 - buy_place_ratio) and
sell_price_min = ref_price_sell * (1 + sell_place_ratio) (source lines
375-376).  num_orders is the number of proposals accepted so far this cycle. -/
def phase3_pair (inp : Inputs) (f : String → Option (ℚ × ℚ)) (st : St) (num_orders : ℕ)
    (p : String) : Except Err (St × P3Eff) :=
  if 0 < num_orders then .ok (st, ⟨[], 1, 0, 0, 0⟩)
  else if inp.now < qadd (st.last_order_time p) time_between_orders_for_trading_pair then
    .ok (st, ⟨[], 0, 1, 0, 0⟩)
  else
    match f p with
    | none => .error (.key_error p)
    | some (ref_price_buy, ref_price_sell) =>
      let buy_price_max := qmul ref_price_buy (qsub 1 buy_place_ratio)
      let sell_price_min := qmul ref_price_sell (qadd 1 sell_place_ratio)
      match split_pair p with
      | [base_cur, quote_cur] =>
        match phase3_buy inp st p quote_cur buy_price_max with
        | .error e => .error e
        | .ok (st1, buy_cands, dist1, bal1) =>
          match phase3_sell inp st1 p base_cur quote_cur sell_price_min with
          | .error e => .error e
          | .ok (st2, sell_cands, dist2, bal2) =>
            .ok (st2, ⟨buy_cands ++ sell_cands, 0, 0, dist1 + dist2, bal1 + bal2⟩)
      | _ => .error .value_error

/-- Fold a per-pair step over the trading pairs; an exception from one pair
aborts the remaining pairs while keeping the effects already performed. -/
def run_pairs {σ : Type} (step : σ → String → Except Err σ) : σ → List String → σ × Option Err
  | s, [] => (s, none)
  | s, p :: ps =>
    match step s p with
    | .error e => (s, some e)
    | .ok s' => run_pairs step s' ps

/-- Phase 1 step: thread the state and accumulate the cancellations. -/
def step1 (inp : Inputs) (f : String → Option (ℚ × ℚ)) :
    St × List (String × String) → String → Except Err (St × List (String × String))
  | (st, acc), p =>
    match phase1_pair inp f st p with
    | .error e => .error e
    | .ok (st', cs) => .ok (st', acc ++ cs)

/-- Phase 2 step: thread the state and accumulate the cancellations. -/
def step2 (inp : Inputs) (f : String → Option (ℚ × ℚ)) :
    St × List (String × String) → String → Except Err (St × List (String × String))
  | (st, acc), p =>
    match phase2_pair inp f st p with
    | .error e => .error e
    | .ok (st', cs) => .ok (st', acc ++ cs)

/-- Phase 3 step: num_orders (source line 349) is incremented exactly when a
proposal is appended (source lines 429-430, 466-467), hence equals the number
of proposals accepted so far. -/
def step3 (inp : Inputs) (f : String → Option (ℚ × ℚ)) :
    St × P3Eff → String → Except Err (St × P3Eff)
  | (st, acc), p =>
    match phase3_pair inp f st acc.proposals.length p with
    | .error e => .error e
    | .ok (st', eff) =>
      .ok (st', ⟨acc.proposals ++ eff.proposals, acc.skip_count + eff.skip_count,
                 acc.skip_time + eff.skip_time, acc.skip_distance + eff.skip_distance,
                 acc.skip_balance + eff.skip_balance⟩)

/-- The observable outcome of one tick. -/
structure Res where
  cancels_unprofitable : List (String × String)
  cancels_outbid : List (String × String)
  proposals : List Candidate
  skip_count : ℕ
  skip_time : ℕ
  skip_distance : ℕ
  skip_balance : ℕ
  err : Option Err
deriving DecidableEq

/-- The outcome of a tick that performs nothing. -/
def empty_res : Res := ⟨[], [], [], 0, 0, 0, 0, none⟩

/-- One tick of the strategy (source lines 177-483).  A feed that has not
started returns immediately (source lines 183-185); a cached payload that is
not a string raises TypeError, which is caught and returns immediately (source
lines 191-196); a malformed payload string raises json.JSONDecodeError, which
is not caught; otherwise the three phases run with the gating of source lines
268-269, 282, 320-321 and 343. -/
def on_tick (inp : Inputs) (st : St) : St × Res :=
  if inp.feed_started = false then (st, empty_res)
  else
    match inp.payload with
    | .not_a_string => (st, empty_res)
    | .bad_json => (st, { empty_res with err := some .json_decode_error })
    | .parsed f =>
      match run_pairs (step1 inp f) (st, []) inp.pairs with
      | ((st1, cs1), some e) =>
        (st1, { empty_res with cancels_unprofitable := cs1, err := some e })
      | ((st1, cs1), none) =>
        match (if 0 < cs1.length then ((st1, ([] : List (String × String))), (none : Option Err))
               else run_pairs (step2 inp f) (st1, []) inp.pairs) with
        | ((st2, cs2), some e) =>
          (st2, { empty_res with
                  cancels_unprofitable := cs1
                  cancels_outbid := cs2
                  err := some e })
        | ((st2, cs2), none) =>
          if 0 < cs1.length ∨ 0 < cs2.length then
            (st2, { empty_res with cancels_unprofitable := cs1, cancels_outbid := cs2 })
          else
            match run_pairs (step3 inp f) (st2, ⟨[], 0, 0, 0, 0⟩) inp.pairs with
            | ((st3, acc), e3) =>
              (st3, ⟨cs1, cs2, acc.proposals, acc.skip_count, acc.skip_time,
                     acc.skip_distance, acc.skip_balance, e3⟩)

/-! ### Characterisation of the cancellation loop -/

theorem cancel_loop_snd (pred : OpenOrder → Bool) (p : String) (now : ℚ)
    (os : List OpenOrder) (st : St) :
    (cancel_loop pred p now os st).2 = (os.filter pred).map (fun o => (p, o.client_order_id)) := by
  induction os generalizing st with
  | nil => rfl
  | cons o os ih =>
    by_cases h : pred o
    · simp [cancel_loop, h, ih]
    · simp [cancel_loop, h, ih]

theorem cancel_loop_lot (pred : OpenOrder → Bool) (p : String) (now : ℚ)
    (os : List OpenOrder) (st : St) :
    (cancel_loop pred p now os st).1.last_order_time = st.last_order_time := by
  induction os generalizing st with
  | nil => rfl
  | cons o os ih =>
    by_cases h : pred o
    · simp [cancel_loop, h, ih]
    · simp [cancel_loop, h, ih]

theorem cancel_loop_lct_ne (pred : OpenOrder → Bool) (p : String) (now : ℚ)
    (os : List OpenOrder) (st : St) (q : String) (hq : q ≠ p) :
    (cancel_loop pred p now os st).1.last_cancel_time q = st.last_cancel_time q := by
  induction os generalizing st with
  | nil => rfl
  | cons o os ih =>
    by_cases h : pred o
    · simp [cancel_loop, h, ih, hq]
    · simp [cancel_loop, h, ih]

theorem cancel_loop_lct_self (pred : OpenOrder → Bool) (p : String) (now : ℚ)
    (os : List OpenOrder) (st : St) :
    (cancel_loop pred p now os st).1.last_cancel_time p =
      if os.filter pred = [] then st.last_cancel_time p else now := by
  induction os generalizing st with
  | nil => rfl
  | cons o os ih =>
    by_cases h : pred o
    · simp [cancel_loop, h, ih]
    · simp [cancel_loop, h, ih]

/-! ### Characterisation of the Phase 3 price selection and per-pair body -/

theorem buy_price_sel_eq (bpm ob : ℚ) :
    buy_price_sel bpm ob = if ob < bpm then (bpm + ob) / 2 else bpm := by
  unfold buy_price_sel
  rw [qdiv_eq, qadd_eq]

theorem sell_price_sel_eq (spm oa : ℚ) :
    sell_price_sel spm oa = if oa > spm then (spm + oa) / 2 else spm := by
  unfold sell_price_sel
  rw [qdiv_eq, qadd_eq]

theorem buy_price_sel_le (bpm ob : ℚ) : buy_price_sel bpm ob ≤ bpm := by
  rw [buy_price_sel_eq]
  split
  · linarith
  · exact le_refl bpm

theorem sell_price_sel_ge (spm oa : ℚ) : spm ≤ sell_price_sel spm oa := by
  rw [sell_price_sel_eq]
  split
  · linarith
  · exact le_refl spm

theorem phase3_buy_ok_spec (inp : Inputs) (st : St) (p q : String) (bpm : ℚ)
    (st' : St) (cands : List Candidate) (d b : ℕ)
    (h : phase3_buy inp st p q bpm = .ok (st', cands, d, b)) :
    cands.length ≤ 1 ∧ ∀ c ∈ cands, c.trading_pair = p ∧ c.is_buy = true ∧
      c.price = buy_price_sel bpm (inp.orderbook_bid p) := by
  unfold phase3_buy at h
  split at h
  · split at h
    · injection h with h
      cases h
      simp
    · split at h
      · exact Except.noConfusion h
      · dsimp only at h
        split at h
        · exact Except.noConfusion h
        · split at h
          · injection h with h
            cases h
            simp
          · injection h with h
            cases h
            simp
  · injection h with h
    cases h
    simp

theorem phase3_sell_ok_spec (inp : Inputs) (st : St) (p bc q : String) (spm : ℚ)
    (st' : St) (cands : List Candidate) (d b : ℕ)
    (h : phase3_sell inp st p bc q spm = .ok (st', cands, d, b)) :
    cands.length ≤ 1 ∧ ∀ c ∈ cands, c.trading_pair = p ∧ c.is_buy = false ∧
      c.price = sell_price_sel spm (inp.orderbook_ask p) := by
  unfold phase3_sell at h
  split at h
  · split at h
    · injection h with h
      cases h
      simp
    · split at h
      · exact Except.noConfusion h
      · dsimp only at h
        split at h
        · injection h with h
          cases h
          simp
        · injection h with h
          cases h
          simp
  · injection h with h
    cases h
    simp

theorem phase3_pair_pos (inp : Inputs) (f : String → Option (ℚ × ℚ)) (st : St)
    (n : ℕ) (p : String) (hn : 0 < n) :
    phase3_pair inp f st n p = .ok (st, ⟨[], 1, 0, 0, 0⟩) := by
  unfold phase3_pair
  rw [if_pos hn]

theorem phase3_pair_ok_spec (inp : Inputs) (f : String → Option (ℚ × ℚ)) (st : St)
    (n : ℕ) (p : String) (st' : St) (eff : P3Eff)
    (h : phase3_pair inp f st n p = .ok (st', eff)) :
    eff.proposals.length ≤ 2 ∧ ∀ c ∈ eff.proposals, c.trading_pair = p ∧
      ∃ bid ask, f p = some (bid, ask) ∧
        (c.is_buy = true →
          c.price = buy_price_sel (qmul bid (qsub 1 buy_place_ratio)) (inp.orderbook_bid p)) ∧
        (c.is_buy = false →
          c.price = sell_price_sel (qmul ask (qadd 1 sell_place_ratio)) (inp.orderbook_ask p)) := by
  unfold phase3_pair at h
  by_cases hn : 0 < n
  · rw [if_pos hn] at h
    injection h with h
    cases h
    simp
  · rw [if_neg hn] at h
    by_cases ht : inp.now < qadd (st.last_order_time p) time_between_orders_for_trading_pair
    · rw [if_pos ht] at h
      injection h with h
      cases h
      simp
    · rw [if_neg ht] at h
      rcases hf : f p with _ | ⟨bid, ask⟩
      · rw [hf] at h
        exact Except.noConfusion h
      · rw [hf] at h
        dsimp only at h
        rcases hsp : split_pair p with _ | ⟨b0, t0⟩
        · rw [hsp] at h
          exact Except.noConfusion h
        · rcases t0 with _ | ⟨q0, t1⟩
          · rw [hsp] at h
            exact Except.noConfusion h
          · rcases t1 with _ | ⟨r0, t2⟩
            · rw [hsp] at h
              dsimp only at h
              rcases hbuy : phase3_buy inp st p q0 (qmul bid (qsub 1 buy_place_ratio)) with
                e | ⟨st1, cands1, d1, b1⟩
              · rw [hbuy] at h
                exact Except.noConfusion h
              · rw [hbuy] at h
                dsimp only at h
                rcases hsell : phase3_sell inp st1 p b0 q0 (qmul ask (qadd 1 sell_place_ratio)) with
                  e | ⟨st2, cands2, d2, b2⟩
                · rw [hsell] at h
                  exact Except.noConfusion h
                · rw [hsell] at h
                  injection h with h
                  cases h
                  obtain ⟨hl1, hm1⟩ := phase3_buy_ok_spec _ _ _ _ _ _ _ _ _ hbuy
                  obtain ⟨hl2, hm2⟩ := phase3_sell_ok_spec _ _ _ _ _ _ _ _ _ _ hsell
                  constructor
                  · calc (cands1 ++ cands2).length = cands1.length + cands2.length :=
                          List.length_append cands1 cands2
                      _ ≤ 1 + 1 := Nat.add_le_add hl1 hl2
                  · intro c hc
                    rcases List.mem_append.mp hc with hc1 | hc2
                    · obtain ⟨hp, hb, hpr⟩ := hm1 c hc1
                      refine ⟨hp, bid, ask, rfl, fun _ => hpr, fun hfalse => ?_⟩
                      rw [hb] at hfalse
                      exact Bool.noConfusion hfalse
                    · obtain ⟨hp, hb, hpr⟩ := hm2 c hc2
                      refine ⟨hp, bid, ask, rfl, fun htrue => ?_, fun _ => hpr⟩
                      rw [hb] at htrue
                      exact Bool.noConfusion htrue
            · rw [hsp] at h
              exact Except.noConfusion h

/-! ### The Phase 3 fold: the global one-pair proposal cap -/

theorem run3_no_more (inp : Inputs) (f : String → Option (ℚ × ℚ)) (ps : List String) :
    ∀ (st : St) (acc : P3Eff), acc.proposals ≠ [] →
      ((run_pairs (step3 inp f) (st, acc) ps).1.2).proposals = acc.proposals := by
  induction ps with
  | nil =>
    intro st acc h
    rfl
  | cons p ps ih =>
    intro st acc h
    have hpos : 0 < acc.proposals.length := List.length_pos.mpr h
    have hstep : step3 inp f (st, acc) p =
        .ok (st, ⟨acc.proposals ++ [], acc.skip_count + 1, acc.skip_time + 0,
                  acc.skip_distance + 0, acc.skip_balance + 0⟩) := by
      unfold step3
      dsimp only
      rw [phase3_pair_pos inp f st _ p hpos]
    rw [run_pairs, hstep]
    simp only [List.append_nil]
    exact ih st _ (by simpa using h)

theorem run3_single (inp : Inputs) (f : String → Option (ℚ × ℚ)) (ps : List String) :
    ∀ (st : St) (acc : P3Eff), acc.proposals = [] →
      (∀ c1 ∈ ((run_pairs (step3 inp f) (st, acc) ps).1.2).proposals,
        ∀ c2 ∈ ((run_pairs (step3 inp f) (st, acc) ps).1.2).proposals,
          c1.trading_pair = c2.trading_pair) ∧
      ((run_pairs (step3 inp f) (st, acc) ps).1.2).proposals.length ≤ 2 := by
  induction ps with
  | nil =>
    intro st acc h
    constructor
    · intro c1 hc1
      rw [show (run_pairs (step3 inp f) (st, acc) []).1.2 = acc from rfl, h] at hc1
      exact absurd hc1 (List.not_mem_nil c1)
    · rw [show (run_pairs (step3 inp f) (st, acc) []).1.2 = acc from rfl, h]
      decide
  | cons p ps ih =>
    intro st acc h
    rw [run_pairs]
    rcases hpair : phase3_pair inp f st acc.proposals.length p with e2 | ⟨st2, eff⟩
    · have hstep : step3 inp f (st, acc) p = .error e2 := by
        unfold step3
        dsimp only
        rw [hpair]
      rw [hstep]
      constructor
      · intro c1 hc1
        rw [show ((st, acc), some e2).1.2 = acc from rfl, h] at hc1
        exact absurd hc1 (List.not_mem_nil c1)
      · rw [show ((st, acc), some e2).1.2 = acc from rfl, h]
        decide
    · have hstep : step3 inp f (st, acc) p = .ok (st2,
          ⟨acc.proposals ++ eff.proposals, acc.skip_count + eff.skip_count,
           acc.skip_time + eff.skip_time, acc.skip_distance + eff.skip_distance,
           acc.skip_balance + eff.skip_balance⟩) := by
        unfold step3
        dsimp only
        rw [hpair]
      rw [hstep]
      by_cases hne : eff.proposals = []
      · exact ih st2 _ (by simp [h, hne])
      · have hfold := run3_no_more inp f ps st2
          (⟨acc.proposals ++ eff.proposals, acc.skip_count + eff.skip_count,
            acc.skip_time + eff.skip_time, acc.skip_distance + eff.skip_distance,
            acc.skip_balance + eff.skip_balance⟩ : P3Eff) (by simp [h, hne])
        rw [hfold]
        obtain ⟨hlen, hmem⟩ := phase3_pair_ok_spec _ _ _ _ _ _ _ hpair
        constructor
        · intro c1 hc1 c2 hc2
          rw [h, List.nil_append] at hc1 hc2
          rw [(hmem c1 hc1).1, (hmem c2 hc2).1]
        · simpa [h] using hlen

theorem run3_mem (inp : Inputs) (f : String → Option (ℚ × ℚ)) (P : Candidate → Prop)
    (hstep0 : ∀ (st : St) (n : ℕ) (p : String) (st' : St) (eff : P3Eff),
      phase3_pair inp f st n p = .ok (st', eff) → ∀ c ∈ eff.proposals, P c)
    (ps : List String) :
    ∀ (st : St) (acc : P3Eff), (∀ c ∈ acc.proposals, P c) →
      ∀ c ∈ ((run_pairs (step3 inp f) (st, acc) ps).1.2).proposals, P c := by
  induction ps with
  | nil =>
    intro st acc hacc c hc
    exact hacc c hc
  | cons p ps ih =>
    intro st acc hacc
    rw [run_pairs]
    rcases hpair : phase3_pair inp f st acc.proposals.length p with e2 | ⟨st2, eff⟩
    · have hstep : step3 inp f (st, acc) p = .error e2 := by
        unfold step3
        dsimp only
        rw [hpair]
      rw [hstep]
      exact fun c hc => hacc c hc
    · have hstep : step3 inp f (st, acc) p = .ok (st2,
          ⟨acc.proposals ++ eff.proposals, acc.skip_count + eff.skip_count,
           acc.skip_time + eff.skip_time, acc.skip_distance + eff.skip_distance,
           acc.skip_balance + eff.skip_balance⟩) := by
        unfold step3
        dsimp only
        rw [hpair]
      rw [hstep]
      refine ih st2 _ ?_
      intro c hc
      rcases List.mem_append.mp hc with hc1 | hc2
      · exact hacc c hc1
      · exact hstep0 st acc.proposals.length p st2 eff hpair c hc2

/-- Every accepted proposal of a cycle comes from the Phase 3 fold started with
an empty accumulator, or the cycle accepted none at all. -/
theorem on_tick_proposals_cases (inp : Inputs) (st : St) :
    (on_tick inp st).2.proposals = [] ∨
    ∃ f st2, inp.payload = .parsed f ∧
      (on_tick inp st).2.proposals =
        ((run_pairs (step3 inp f) (st2, ⟨[], 0, 0, 0, 0⟩) inp.pairs).1.2).proposals := by
  unfold on_tick
  by_cases hs : inp.feed_started = false
  · rw [if_pos hs]
    exact Or.inl rfl
  · rw [if_neg hs]
    cases hpay : inp.payload with
    | not_a_string => exact Or.inl rfl
    | bad_json => exact Or.inl rfl
    | parsed f =>
      dsimp only
      rcases hrun1 : run_pairs (step1 inp f) (st, []) inp.pairs with ⟨⟨st1, cs1⟩, e1⟩
      cases e1 with
      | some e => exact Or.inl rfl
      | none =>
        dsimp only
        by_cases h1 : 0 < cs1.length
        · rw [if_pos h1]
          dsimp only
          rw [if_pos (Or.inl h1 : 0 < cs1.length ∨ 0 < ([] : List (String × String)).length)]
          exact Or.inl rfl
        · rw [if_neg h1]
          rcases hrun2 : run_pairs (step2 inp f) (st1, []) inp.pairs with ⟨⟨st2, cs2⟩, e2⟩
          cases e2 with
          | some e => exact Or.inl rfl
          | none =>
            dsimp only
            by_cases h2 : 0 < cs1.length ∨ 0 < cs2.length
            · rw [if_pos h2]
              exact Or.inl rfl
            · rw [if_neg h2]
              rcases hrun3 : run_pairs (step3 inp f) (st2, ⟨[], 0, 0, 0, 0⟩) inp.pairs with
                ⟨⟨st3, acc⟩, e3⟩
              refine Or.inr ⟨f, st2, rfl, ?_⟩
              rw [hrun3]

/-! ### Claims C4 and C5: the cancellation rules -/

/-- Claim C4: in Phase 1, for every pair with a valid (positive) reference bid
and ask, an open buy order is cancelled iff order.price >
ref_bid * (1 - buy_cancel_unprofitable_ratio) and an open sell order is
cancelled iff order.price < ref_ask * (1 + sell_cancel_unprofitable_ratio);
the cancellation list (whose length is the cycle's unprofitable-cancel counter
contribution) is exactly the filtered orders in iteration order, and
last_cancel_time[pair] is set to now exactly when at least one cancellation
happened, other pairs and last_order_time being untouched. -/
theorem C4_phase1_unprofitable_rule (inp : Inputs) (f : String → Option (ℚ × ℚ))
    (st : St) (p : String) (bid ask : ℚ) (st' : St) (cs : List (String × String))
    (hf : f p = some (bid, ask)) (hb : 0 < bid) (ha : 0 < ask)
    (hok : phase1_pair inp f st p = .ok (st', cs)) :
    cs = ((inp.buy_orders p).filter
            (fun o => decide (o.price > bid * (1 - buy_cancel_unprofitable_ratio)))).map
            (fun o => (p, o.client_order_id)) ++
         ((inp.sell_orders p).filter
            (fun o => decide (o.price < ask * (1 + sell_cancel_unprofitable_ratio)))).map
            (fun o => (p, o.client_order_id)) ∧
    st'.last_cancel_time p = (if cs = [] then st.last_cancel_time p else inp.now) ∧
    (∀ q, q ≠ p → st'.last_cancel_time q = st.last_cancel_time q) ∧
    st'.last_order_time = st.last_order_time := by
  have hskip : ¬(bid ≤ 0 ∨ ask ≤ 0) := by
    push_neg
    exact ⟨hb, ha⟩
  simp only [phase1_pair, hf, if_neg hskip] at hok
  injection hok with hok
  cases hok
  refine ⟨?_, ?_, ?_, ?_⟩
  · rw [cancel_loop_snd, cancel_loop_snd]
    simp only [qmul_eq, qsub_eq, qadd_eq]
  · rw [cancel_loop_lct_self, cancel_loop_lct_self, cancel_loop_snd, cancel_loop_snd]
    by_cases hB : (inp.buy_orders p).filter
        (fun o => decide (o.price > qmul bid (qsub 1 buy_cancel_unprofitable_ratio))) = []
    · by_cases hS : (inp.sell_orders p).filter
          (fun o => decide (o.price < qmul ask (qadd 1 sell_cancel_unprofitable_ratio))) = []
      · simp [hB, hS]
      · simp [hB, hS]
    · by_cases hS : (inp.sell_orders p).filter
          (fun o => decide (o.price < qmul ask (qadd 1 sell_cancel_unprofitable_ratio))) = []
      · simp [hB, hS]
      · simp [hB, hS]
  · intro q hq
    rw [cancel_loop_lct_ne _ _ _ _ _ _ hq, cancel_loop_lct_ne _ _ _ _ _ _ hq]
  · rw [cancel_loop_lot, cancel_loop_lot]

def c4_f : String → Option (ℚ × ℚ) :=
  fun q => if q = "ADA-BTC" then some (mkRat 1 1000, mkRat 11 10000) else none

def c4_inp : Inputs :=
  { pairs := ["ADA-BTC"]
    feed_started := true
    payload := .parsed c4_f
    orderbook_bid := fun _ => 0
    orderbook_ask := fun _ => 0
    buy_orders := fun _ => [⟨"o1", mkRat 105 100000⟩]
    sell_orders := fun _ => []
    available_balance := fun _ => 0
    now := 10 }

def c4_st' : St := ⟨fun q => if q = "ADA-BTC" then 10 else 0, fun _ => 0⟩

/-- Witness for C4: the buy order at 0.00105 against a reference bid of 0.0010
is exactly the cancelled set. -/
theorem C4_phase1_unprofitable_rule_witness :
    ([("ADA-BTC", "o1")] : List (String × String)) =
      (([⟨"o1", mkRat 105 100000⟩] : List OpenOrder).filter
          (fun o => decide (o.price > mkRat 1 1000 * (1 - buy_cancel_unprofitable_ratio)))).map
          (fun o => ("ADA-BTC", o.client_order_id)) ++
      (([] : List OpenOrder).filter
          (fun o => decide (o.price < mkRat 11 10000 * (1 + sell_cancel_unprofitable_ratio)))).map
          (fun o => ("ADA-BTC", o.client_order_id)) :=
  (C4_phase1_unprofitable_rule c4_inp c4_f (init_state 0) ("ADA-BTC")
    (mkRat 1 1000) (mkRat 11 10000) c4_st' [("ADA-BTC", "o1")]
    rfl (by decide) (by decide) rfl).1

/-- Claim C5: in Phase 2, for every pair with a valid (positive) reference bid
and ask, an open buy order is cancelled iff order.price <
top_of_book.bid * (1 - buy_cancel_outbid_ratio) and an open sell order is
cancelled iff order.price > top_of_book.ask * (1 + sell_cancel_outbid_ratio),
with the same counter and last_cancel_time bookkeeping as Phase 1. -/
theorem C5_phase2_outbid_rule (inp : Inputs) (f : String → Option (ℚ × ℚ))
    (st : St) (p : String) (bid ask : ℚ) (st' : St) (cs : List (String × String))
    (hf : f p = some (bid, ask)) (hb : 0 < bid) (ha : 0 < ask)
    (hok : phase2_pair inp f st p = .ok (st', cs)) :
    cs = ((inp.buy_orders p).filter
            (fun o => decide (o.price < inp.orderbook_bid p * (1 - buy_cancel_outbid_ratio)))).map
            (fun o => (p, o.client_order_id)) ++
         ((inp.sell_orders p).filter
            (fun o => decide (o.price > inp.orderbook_ask p * (1 + sell_cancel_outbid_ratio)))).map
            (fun o => (p, o.client_order_id)) ∧
    st'.last_cancel_time p = (if cs = [] then st.last_cancel_time p else inp.now) ∧
    (∀ q, q ≠ p → st'.last_cancel_time q = st.last_cancel_time q) ∧
    st'.last_order_time = st.last_order_time := by
  have hskip : ¬(bid ≤ 0 ∨ ask ≤ 0) := by
    push_neg
    exact ⟨hb, ha⟩
  simp only [phase2_pair, hf, if_neg hskip] at hok
  injection hok with hok
  cases hok
  refine ⟨?_, ?_, ?_, ?_⟩
  · rw [cancel_loop_snd, cancel_loop_snd]
    simp only [qmul_eq, qsub_eq, qadd_eq]
  · rw [cancel_loop_lct_self, cancel_loop_lct_self, cancel_loop_snd, cancel_loop_snd]
    by_cases hB : (inp.buy_orders p).filter
        (fun o => decide (o.price < qmul (inp.orderbook_bid p) (qsub 1 buy_cancel_outbid_ratio))) = []
    · by_cases hS : (inp.sell_orders p).filter
          (fun o => decide (o.price > qmul (inp.orderbook_ask p) (qadd 1 sell_cancel_outbid_ratio))) = []
      · simp [hB, hS]
      · simp [hB, hS]
    · by_cases hS : (inp.sell_orders p).filter
          (fun o => decide (o.price > qmul (inp.orderbook_ask p) (qadd 1 sell_cancel_outbid_ratio))) = []
      · simp [hB, hS]
      · simp [hB, hS]
  · intro q hq
    rw [cancel_loop_lct_ne _ _ _ _ _ _ hq, cancel_loop_lct_ne _ _ _ _ _ _ hq]
  · rw [cancel_loop_lot, cancel_loop_lot]

def c5_inp : Inputs :=
  { pairs := ["ADA-BTC"]
    feed_started := true
    payload := .parsed c4_f
    orderbook_bid := fun _ => mkRat 1 1000
    orderbook_ask := fun _ => mkRat 11 10000
    buy_orders := fun _ => [⟨"o2", mkRat 5 10000⟩]
    sell_orders := fun _ => []
    available_balance := fun _ => 0
    now := 10 }

/-- Witness for C5: a buy order at 0.0005 against a book bid of 0.0010 is
outbid by more than 3% and is exactly the cancelled set. -/
theorem C5_phase2_outbid_rule_witness :
    ([("ADA-BTC", "o2")] : List (String × String)) =
      (([⟨"o2", mkRat 5 10000⟩] : List OpenOrder).filter
          (fun o => decide (o.price < c5_inp.orderbook_bid ("ADA-BTC") * (1 - buy_cancel_outbid_ratio)))).map
          (fun o => ("ADA-BTC", o.client_order_id)) ++
      (([] : List OpenOrder).filter
          (fun o => decide (o.price > c5_inp.orderbook_ask ("ADA-BTC") * (1 + sell_cancel_outbid_ratio)))).map
          (fun o => ("ADA-BTC", o.client_order_id)) :=
  (C5_phase2_outbid_rule c5_inp c4_f (init_state 0) ("ADA-BTC")
    (mkRat 1 1000) (mkRat 11 10000) c4_st' [("ADA-BTC", "o2")]
    rfl (by decide) (by decide) rfl).1

/-! ### Claim C9: a payload TypeError makes the cycle a no-op -/

/-- Claim C9: if parsing the cached reference-feed payload raises a TypeError
at the start of a cycle (the cached value is not a string), the cycle returns
immediately: no cancellations, no proposals, no error surfaced, and no mutation
of last_cancel_time or last_order_time for any pair. -/
theorem C9_parse_type_error_noop (inp : Inputs) (st : St)
    (hs : inp.feed_started = true) (hp : inp.payload = .not_a_string) :
    on_tick inp st = (st, empty_res) := by
  unfold on_tick
  rw [hs, hp]
  rfl

def c9_inp : Inputs :=
  { pairs := ["ADA-BTC"]
    feed_started := true
    payload := .not_a_string
    orderbook_bid := fun _ => 0
    orderbook_ask := fun _ => 0
    buy_orders := fun _ => []
    sell_orders := fun _ => []
    available_balance := fun _ => 0
    now := 10 }

/-- Witness for C9. -/
theorem C9_parse_type_error_noop_witness :
    on_tick c9_inp (init_state 3) = (init_state 3, empty_res) :=
  C9_parse_type_error_noop c9_inp (init_state 3) rfl rfl

/-! ### Claim C3: phase priority gating -/

/-- Claim C3: in every cycle, if Phase 1 performed at least one cancellation
then Phase 2 performs none and Phase 3 accepts no proposal; and if Phase 1
performed none but Phase 2 performed at least one, Phase 3 accepts no
proposal. -/
theorem C3_phase_priority (inp : Inputs) (st : St) :
    ((on_tick inp st).2.cancels_unprofitable ≠ [] →
      (on_tick inp st).2.cancels_outbid = [] ∧ (on_tick inp st).2.proposals = []) ∧
    ((on_tick inp st).2.cancels_unprofitable = [] →
      (on_tick inp st).2.cancels_outbid ≠ [] →
      (on_tick inp st).2.proposals = []) := by
  unfold on_tick
  by_cases hs : inp.feed_started = false
  · rw [if_pos hs]
    exact ⟨fun h => absurd rfl h, fun _ h => absurd rfl h⟩
  · rw [if_neg hs]
    cases hpay : inp.payload with
    | not_a_string => exact ⟨fun h => absurd rfl h, fun _ h => absurd rfl h⟩
    | bad_json => exact ⟨fun h => absurd rfl h, fun _ h => absurd rfl h⟩
    | parsed f =>
      dsimp only
      rcases hrun1 : run_pairs (step1 inp f) (st, []) inp.pairs with ⟨⟨st1, cs1⟩, e1⟩
      cases e1 with
      | some e => exact ⟨fun _ => ⟨rfl, rfl⟩, fun _ _ => rfl⟩
      | none =>
        dsimp only
        by_cases h1 : 0 < cs1.length
        · rw [if_pos h1]
          dsimp only
          rw [if_pos (Or.inl h1 : 0 < cs1.length ∨ 0 < ([] : List (String × String)).length)]
          exact ⟨fun _ => ⟨rfl, rfl⟩, fun _ _ => rfl⟩
        · rw [if_neg h1]
          have hcs1 : cs1 = [] := List.eq_nil_of_length_eq_zero (Nat.eq_zero_of_not_pos h1)
          rcases hrun2 : run_pairs (step2 inp f) (st1, []) inp.pairs with ⟨⟨st2, cs2⟩, e2⟩
          cases e2 with
          | some e =>
            exact ⟨fun hne => absurd hcs1 hne, fun _ _ => rfl⟩
          | none =>
            dsimp only
            by_cases h2 : 0 < cs1.length ∨ 0 < cs2.length
            · rw [if_pos h2]
              exact ⟨fun hne => absurd hcs1 hne, fun _ _ => rfl⟩
            · rw [if_neg h2]
              rcases hrun3 : run_pairs (step3 inp f) (st2, ⟨[], 0, 0, 0, 0⟩) inp.pairs with
                ⟨⟨st3, acc⟩, e3⟩
              refine ⟨fun hne => absurd hcs1 hne, fun _ hne2 => ?_⟩
              exact absurd (Or.inr (List.length_pos.mpr hne2)) h2

def c3_inp_a : Inputs :=
  { pairs := ["ADA-BTC"]
    feed_started := true
    payload := .parsed c4_f
    orderbook_bid := fun _ => mkRat 1 1000
    orderbook_ask := fun _ => mkRat 12 10000
    buy_orders := fun _ => [⟨"o1", mkRat 105 100000⟩]
    sell_orders := fun _ => []
    available_balance := fun _ => 1
    now := 10 }

def c3_inp_b : Inputs :=
  { pairs := ["ADA-BTC"]
    feed_started := true
    payload := .parsed c4_f
    orderbook_bid := fun _ => mkRat 1 1000
    orderbook_ask := fun _ => mkRat 12 10000
    buy_orders := fun _ => [⟨"o2", mkRat 5 10000⟩]
    sell_orders := fun _ => []
    available_balance := fun _ => 1
    now := 10 }

/-- Witness for C3: a cycle with a Phase 1 cancellation produces no Phase 2
cancellation and no proposal; a cycle with only a Phase 2 cancellation produces
no proposal. -/
theorem C3_phase_priority_witness :
    ((on_tick c3_inp_a (init_state 0)).2.cancels_outbid = [] ∧
      (on_tick c3_inp_a (init_state 0)).2.proposals = []) ∧
    (on_tick c3_inp_b (init_state 0)).2.proposals = [] :=
  ⟨(C3_phase_priority c3_inp_a (init_state 0)).1 (by decide),
   (C3_phase_priority c3_inp_b (init_state 0)).2 (by decide) (by decide)⟩

/-! ### Claim C1: non-positive reference prices and Phase 3 -/

def c1_f : String → Option (ℚ × ℚ) :=
  fun q => if q = "ADA-BTC" then some (mkRat 1 1000, -1) else none

def c1_inp : Inputs :=
  { pairs := ["ADA-BTC"]
    feed_started := true
    payload := .parsed c1_f
    orderbook_bid := fun _ => mkRat 1 100
    orderbook_ask := fun _ => mkRat 11 10000
    buy_orders := fun _ => []
    sell_orders := fun _ => []
    available_balance := fun c => if c = "ADA" then 1 else 0
    now := 10 }

/-- Claim C1 is violated by the code: the pair "ADA-BTC" has reference ask
-1 ≤ 0 (the staleness convention), Phases 1 and 2 skip it as the claim states,
but Phase 3 has no non-positivity guard: with a positive book ask the sell
distance check cannot fire, and the cycle accepts a sell proposal priced at
(sell_price_min + orderbook_ask) / 2 = -0.4997, a negative price derived from
the stale reference.  The buy side is only shielded incidentally by the
distance skip. -/
theorem C1_stale_pair_reaches_phase3 :
    (c1_f ("ADA-BTC") = some (mkRat 1 1000, -1) ∧ ((-1 : ℚ) ≤ 0)) ∧
    (on_tick c1_inp (init_state 0)).2.cancels_unprofitable = [] ∧
    (on_tick c1_inp (init_state 0)).2.cancels_outbid = [] ∧
    (on_tick c1_inp (init_state 0)).2.proposals =
      [⟨"ADA-BTC", false, mkRat (-4997) 10000, 1⟩] := by
  decide

/-! ### Claim C2: the per-cycle proposal cap -/

def c2_inp : Inputs :=
  { pairs := ["ADA-BTC"]
    feed_started := true
    payload := .parsed (fun p => if p = "ADA-BTC" then some (mkRat 1 1000, mkRat 11 10000) else none)
    orderbook_bid := fun _ => mkRat 98 100000
    orderbook_ask := fun _ => mkRat 12 10000
    buy_orders := fun _ => []
    sell_orders := fun _ => []
    available_balance := fun _ => 1
    now := 10 }

/-- Claim C2 as stated is false: the count cap (source line 349) is only tested
at the start of each pair iteration, so a single pair with both sides free can
have a buy and a sell proposal accepted in the same cycle: with a valid
reference (0.0010, 0.0011), a book of (0.00098, 0.0012), no open orders and
ample balances, the cycle accepts two proposals. -/
theorem C2_counterexample_two_proposals :
    ¬ ((on_tick c2_inp (init_state 0)).2.proposals.length ≤ 1) := by
  decide

/-- Claim C2 amended: at most one trading pair has proposals accepted per
cycle, at most two orders (one per side) and both for that single pair; once
any proposal has been accepted, every remaining pair is skipped with a
count-cap skip. -/
theorem C2_amended_single_pair (inp : Inputs) (st : St) (c1 c2 : Candidate)
    (h1 : c1 ∈ (on_tick inp st).2.proposals) (h2 : c2 ∈ (on_tick inp st).2.proposals) :
    c1.trading_pair = c2.trading_pair ∧ (on_tick inp st).2.proposals.length ≤ 2 := by
  rcases on_tick_proposals_cases inp st with hnil | ⟨f, st2, hpay, heq⟩
  · rw [hnil] at h1
    exact absurd h1 (List.not_mem_nil c1)
  · rw [heq] at h1 h2 ⊢
    obtain ⟨hsame, hlen⟩ := run3_single inp f inp.pairs st2 ⟨[], 0, 0, 0, 0⟩ rfl
    exact ⟨hsame c1 h1 c2 h2, hlen⟩

def c2_buy_cand : Candidate := ⟨"ADA-BTC", true, mkRat 79 80000, mkRat 1518 9875⟩

def c2_sell_cand : Candidate := ⟨"ADA-BTC", false, mkRat 46011 40000000, 1⟩

example : (on_tick c2_inp (init_state 0)).2.proposals = [c2_buy_cand, c2_sell_cand] := by
  decide

/-- Witness for the amended C2: the cycle of the counterexample accepts two
proposals, and they belong to the same single pair. -/
theorem C2_amended_single_pair_witness :
    c2_buy_cand.trading_pair = c2_sell_cand.trading_pair ∧
      (on_tick c2_inp (init_state 0)).2.proposals.length ≤ 2 :=
  C2_amended_single_pair c2_inp (init_state 0) c2_buy_cand c2_sell_cand
    (by decide) (by decide)

/-! ### Claim C6: the Phase 3 price selection -/

/-- Claim C6: every accepted buy proposal is priced at
(buy_price_max + top_of_book.bid) / 2 when top_of_book.bid < buy_price_max and
at buy_price_max otherwise, hence never above
buy_price_max = ref_bid * (1 - buy_place_ratio); symmetrically every accepted
sell proposal is priced at (sell_price_min + top_of_book.ask) / 2 when
top_of_book.ask > sell_price_min and at sell_price_min otherwise, hence never
below sell_price_min = ref_ask * (1 + sell_place_ratio). -/
theorem C6_price_selection (inp : Inputs) (st : St) (c : Candidate)
    (hc : c ∈ (on_tick inp st).2.proposals) :
    ∃ f bid ask, inp.payload = .parsed f ∧ f c.trading_pair = some (bid, ask) ∧
      (c.is_buy = true →
        c.price = (if inp.orderbook_bid c.trading_pair < bid * (1 - buy_place_ratio) then
            (bid * (1 - buy_place_ratio) + inp.orderbook_bid c.trading_pair) / 2
          else bid * (1 - buy_place_ratio)) ∧
        c.price ≤ bid * (1 - buy_place_ratio)) ∧
      (c.is_buy = false →
        c.price = (if inp.orderbook_ask c.trading_pair > ask * (1 + sell_place_ratio) then
            (ask * (1 + sell_place_ratio) + inp.orderbook_ask c.trading_pair) / 2
          else ask * (1 + sell_place_ratio)) ∧
        ask * (1 + sell_place_ratio) ≤ c.price) := by
  rcases on_tick_proposals_cases inp st with hnil | ⟨f, st2, hpay, heq⟩
  · rw [hnil] at hc
    exact absurd hc (List.not_mem_nil c)
  · rw [heq] at hc
    have hP := run3_mem inp f
      (fun c0 => ∃ bid ask, f c0.trading_pair = some (bid, ask) ∧
        (c0.is_buy = true →
          c0.price = (if inp.orderbook_bid c0.trading_pair < bid * (1 - buy_place_ratio) then
              (bid * (1 - buy_place_ratio) + inp.orderbook_bid c0.trading_pair) / 2
            else bid * (1 - buy_place_ratio)) ∧
          c0.price ≤ bid * (1 - buy_place_ratio)) ∧
        (c0.is_buy = false →
          c0.price = (if inp.orderbook_ask c0.trading_pair > ask * (1 + sell_place_ratio) then
              (ask * (1 + sell_place_ratio) + inp.orderbook_ask c0.trading_pair) / 2
            else ask * (1 + sell_place_ratio)) ∧
          ask * (1 + sell_place_ratio) ≤ c0.price))
      ?_ inp.pairs st2 ⟨[], 0, 0, 0, 0⟩
      (fun c0 hc0 => absurd hc0 (List.not_mem_nil c0)) c hc
    · obtain ⟨bid, ask, hfc, hb, hs⟩ := hP
      exact ⟨f, bid, ask, hpay, hfc, hb, hs⟩
    · intro st0 n p st' eff hok c0 hc0
      obtain ⟨-, hmem⟩ := phase3_pair_ok_spec _ _ _ _ _ _ _ hok
      obtain ⟨hp, bid, ask, hfp, hbuy, hsell⟩ := hmem c0 hc0
      refine ⟨bid, ask, by rw [hp]; exact hfp, ?_, ?_⟩
      · intro hb
        have hpr := hbuy hb
        constructor
        · rw [hpr, buy_price_sel_eq, hp, qmul_eq, qsub_eq]
        · rw [hpr, qmul_eq, qsub_eq]
          exact buy_price_sel_le _ _
      · intro hb
        have hpr := hsell hb
        constructor
        · rw [hpr, sell_price_sel_eq, hp, qmul_eq, qadd_eq]
        · rw [hpr, qmul_eq, qadd_eq]
          exact sell_price_sel_ge _ _

def c6_inp : Inputs :=
  { pairs := ["ADA-BTC"]
    feed_started := true
    payload := .parsed (fun p => if p = "ADA-BTC" then some (mkRat 1 1000, mkRat 11 10000) else none)
    orderbook_bid := fun _ => mkRat 98 100000
    orderbook_ask := fun _ => mkRat 12 10000
    buy_orders := fun _ => []
    sell_orders := fun _ => [⟨"s1", mkRat 12 10000⟩]
    available_balance := fun _ => 1
    now := 10 }

example : (on_tick c6_inp (init_state 0)).2.proposals = [c2_buy_cand] := by decide

/-- Witness for C6: the cycle of c6_inp accepts one buy proposal and its price
satisfies the selection rule. -/
theorem C6_price_selection_witness :
    ∃ f bid ask, c6_inp.payload = .parsed f ∧ f c2_buy_cand.trading_pair = some (bid, ask) ∧
      (c2_buy_cand.is_buy = true →
        c2_buy_cand.price =
          (if c6_inp.orderbook_bid c2_buy_cand.trading_pair < bid * (1 - buy_place_ratio) then
            (bid * (1 - buy_place_ratio) + c6_inp.orderbook_bid c2_buy_cand.trading_pair) / 2
          else bid * (1 - buy_place_ratio)) ∧
        c2_buy_cand.price ≤ bid * (1 - buy_place_ratio)) ∧
      (c2_buy_cand.is_buy = false →
        c2_buy_cand.price =
          (if c6_inp.orderbook_ask c2_buy_cand.trading_pair > ask * (1 + sell_place_ratio) then
            (ask * (1 + sell_place_ratio) + c6_inp.orderbook_ask c2_buy_cand.trading_pair) / 2
          else ask * (1 + sell_place_ratio)) ∧
        ask * (1 + sell_place_ratio) ≤ c2_buy_cand.price) :=
  C6_price_selection c6_inp (init_state 0) c2_buy_cand (by decide)

/-! ### Claim C7: the buy-side distance skip -/

/-- Claim C7: when a pair reaches the Phase 3 buy side (no proposal accepted
yet, past the debounce, present in the reference dictionary, no open buy order,
not the excluded pair) and top_of_book.bid >
buy_price_max * (1 + buy_place_max_distance), the buy side is skipped with a
distance skip: the pair's effects contain no buy proposal and at least one
distance skip. -/
theorem C7_buy_distance_skip (inp : Inputs) (f : String → Option (ℚ × ℚ)) (st : St)
    (p : String) (bid ask : ℚ) (st' : St) (eff : P3Eff)
    (hf : f p = some (bid, ask))
    (hb : inp.buy_orders p = [])
    (hp : p ≠ "IRIS-BTC")
    (ht : ¬ inp.now < st.last_order_time p + time_between_orders_for_trading_pair)
    (hdist : inp.orderbook_bid p > bid * (1 - buy_place_ratio) * (1 + buy_place_max_distance))
    (hok : phase3_pair inp f st 0 p = .ok (st', eff)) :
    (∀ c ∈ eff.proposals, c.is_buy = false) ∧ 1 ≤ eff.skip_distance := by
  unfold phase3_pair at hok
  rw [if_neg (lt_irrefl 0)] at hok
  have ht' : ¬ inp.now < qadd (st.last_order_time p) time_between_orders_for_trading_pair := by
    rw [qadd_eq]
    exact ht
  rw [if_neg ht', hf] at hok
  dsimp only at hok
  rcases hsp : split_pair p with _ | ⟨b0, t0⟩
  · rw [hsp] at hok
    exact Except.noConfusion hok
  · rcases t0 with _ | ⟨q0, t1⟩
    · rw [hsp] at hok
      exact Except.noConfusion hok
    · rcases t1 with _ | ⟨r0, t2⟩
      · rw [hsp] at hok
        dsimp only at hok
        have hd : inp.orderbook_bid p >
            qmul (qmul bid (qsub 1 buy_place_ratio)) (qadd 1 buy_place_max_distance) := by
          rw [qmul_eq, qmul_eq, qsub_eq, qadd_eq]
          exact hdist
        have hbuy : phase3_buy inp st p q0 (qmul bid (qsub 1 buy_place_ratio)) =
            .ok (st, [], 1, 0) := by
          unfold phase3_buy
          rw [if_pos ⟨by rw [hb]; rfl, hp⟩, if_pos hd]
        rw [hbuy] at hok
        dsimp only at hok
        rcases hsell : phase3_sell inp st p b0 q0 (qmul ask (qadd 1 sell_place_ratio)) with
          e | ⟨st2, cands2, d2, b2⟩
        · rw [hsell] at hok
          exact Except.noConfusion hok
        · rw [hsell] at hok
          injection hok with hok
          obtain ⟨h1, h2⟩ := Prod.mk.inj hok
          subst h2
          constructor
          · intro c hc
            rw [List.nil_append] at hc
            exact ((phase3_sell_ok_spec _ _ _ _ _ _ _ _ _ _ hsell).2 c hc).2.1
          · exact Nat.le_add_right 1 d2
      · rw [hsp] at hok
        exact Except.noConfusion hok

def c7_f : String → Option (ℚ × ℚ) :=
  fun q => if q = "X-BTC" then some (mkRat 1 1000, mkRat 11 10000) else none

def c7_inp : Inputs :=
  { pairs := ["X-BTC"]
    feed_started := true
    payload := .parsed c7_f
    orderbook_bid := fun _ => mkRat 105 100000
    orderbook_ask := fun _ => mkRat 11 10000
    buy_orders := fun _ => []
    sell_orders := fun _ => [⟨"s1", mkRat 11 10000⟩]
    available_balance := fun _ => 0
    now := 10 }

/-- Witness for C7, the spec's Scenario A: ref_bid = 0.0010 gives
buy_price_max = 0.000995 and bound 0.0010149; the book bid 0.00105 exceeds it,
so the pair records a distance skip and no buy proposal. -/
theorem C7_buy_distance_skip_witness :
    ((mkRat 1 1000 : ℚ) * (1 - buy_place_ratio) = mkRat 995 1000000 ∧
     (mkRat 995 1000000 : ℚ) * (1 + buy_place_max_distance) = mkRat 10149 10000000 ∧
     (mkRat 105 100000 : ℚ) > mkRat 10149 10000000) ∧
    1 ≤ (⟨[], 0, 0, 1, 0⟩ : P3Eff).skip_distance :=
  ⟨by
    refine ⟨?_, ?_, ?_⟩ <;>
      · simp only [buy_place_ratio, buy_place_max_distance, Rat.mkRat_eq_divInt,
          Rat.divInt_eq_div]
        norm_num,
   (C7_buy_distance_skip c7_inp c7_f (init_state 0) ("X-BTC") (mkRat 1 1000) (mkRat 11 10000)
      (init_state 0) ⟨[], 0, 0, 1, 0⟩ rfl rfl (by decide)
      (by
        show ¬ (10 : ℚ) < 0 + 5
        norm_num)
      (by
        show (mkRat 105 100000 : ℚ) > mkRat 1 1000 * (1 - buy_place_ratio) * (1 + buy_place_max_distance)
        simp only [buy_place_ratio, buy_place_max_distance, Rat.mkRat_eq_divInt,
          Rat.divInt_eq_div]
        norm_num)
      rfl).2⟩

/-! ### Claim C8: fault isolation across pairs -/

/-- The Phase 1 cancellation list of one pair, which depends only on the inputs
and never on the rate-limit state. -/
def phase1_cs (inp : Inputs) (f : String → Option (ℚ × ℚ)) (p : String) :
    List (String × String) :=
  match f p with
  | none => []
  | some (ref_price_buy, ref_price_sell) =>
    if ref_price_buy ≤ 0 ∨ ref_price_sell ≤ 0 then []
    else
      ((inp.buy_orders p).filter
        (fun o => decide (o.price > qmul ref_price_buy (qsub 1 buy_cancel_unprofitable_ratio)))).map
        (fun o => (p, o.client_order_id)) ++
      ((inp.sell_orders p).filter
        (fun o => decide (o.price < qmul ref_price_sell (qadd 1 sell_cancel_unprofitable_ratio)))).map
        (fun o => (p, o.client_order_id))

/-- The Phase 2 cancellation list of one pair, state-independent likewise. -/
def phase2_cs (inp : Inputs) (f : String → Option (ℚ × ℚ)) (p : String) :
    List (String × String) :=
  match f p with
  | none => []
  | some (ref_price_buy, ref_price_sell) =>
    if ref_price_buy ≤ 0 ∨ ref_price_sell ≤ 0 then []
    else
      ((inp.buy_orders p).filter
        (fun o => decide (o.price < qmul (inp.orderbook_bid p) (qsub 1 buy_cancel_outbid_ratio)))).map
        (fun o => (p, o.client_order_id)) ++
      ((inp.sell_orders p).filter
        (fun o => decide (o.price > qmul (inp.orderbook_ask p) (qadd 1 sell_cancel_outbid_ratio)))).map
        (fun o => (p, o.client_order_id))

theorem phase1_pair_none (inp : Inputs) (f : String → Option (ℚ × ℚ)) (st : St)
    (p : String) (hf : f p = none) :
    phase1_pair inp f st p = .error (.key_error p) := by
  unfold phase1_pair
  rw [hf]

theorem phase1_pair_some_ok (inp : Inputs) (f : String → Option (ℚ × ℚ)) (st : St)
    (p : String) (bid ask : ℚ) (hf : f p = some (bid, ask)) :
    ∃ st', phase1_pair inp f st p = .ok (st', phase1_cs inp f p) ∧
      st'.last_order_time = st.last_order_time := by
  unfold phase1_pair phase1_cs
  rw [hf]
  dsimp only
  by_cases hsk : bid ≤ 0 ∨ ask ≤ 0
  · rw [if_pos hsk, if_pos hsk]
    exact ⟨st, rfl, rfl⟩
  · rw [if_neg hsk, if_neg hsk]
    refine ⟨(cancel_loop
        (fun o => decide (o.price < qmul ask (qadd 1 sell_cancel_unprofitable_ratio)))
        p inp.now (inp.sell_orders p)
        (cancel_loop
          (fun o => decide (o.price > qmul bid (qsub 1 buy_cancel_unprofitable_ratio)))
          p inp.now (inp.buy_orders p) st).1).1, ?_, ?_⟩
    · rw [cancel_loop_snd, cancel_loop_snd]
    · rw [cancel_loop_lot, cancel_loop_lot]

theorem phase2_pair_none (inp : Inputs) (f : String → Option (ℚ × ℚ)) (st : St)
    (p : String) (hf : f p = none) :
    phase2_pair inp f st p = .error (.key_error p) := by
  unfold phase2_pair
  rw [hf]

theorem phase2_pair_some_ok (inp : Inputs) (f : String → Option (ℚ × ℚ)) (st : St)
    (p : String) (bid ask : ℚ) (hf : f p = some (bid, ask)) :
    ∃ st', phase2_pair inp f st p = .ok (st', phase2_cs inp f p) ∧
      st'.last_order_time = st.last_order_time := by
  unfold phase2_pair phase2_cs
  rw [hf]
  dsimp only
  by_cases hsk : bid ≤ 0 ∨ ask ≤ 0
  · rw [if_pos hsk, if_pos hsk]
    exact ⟨st, rfl, rfl⟩
  · rw [if_neg hsk, if_neg hsk]
    refine ⟨(cancel_loop
        (fun o => decide (o.price > qmul (inp.orderbook_ask p) (qadd 1 sell_cancel_outbid_ratio)))
        p inp.now (inp.sell_orders p)
        (cancel_loop
          (fun o => decide (o.price < qmul (inp.orderbook_bid p) (qsub 1 buy_cancel_outbid_ratio)))
          p inp.now (inp.buy_orders p) st).1).1, ?_, ?_⟩
    · rw [cancel_loop_snd, cancel_loop_snd]
    · rw [cancel_loop_lot, cancel_loop_lot]

theorem phase1_cs_fst (inp : Inputs) (f : String → Option (ℚ × ℚ)) (p : String) :
    ∀ pr ∈ phase1_cs inp f p, pr.1 = p := by
  intro pr hpr
  unfold phase1_cs at hpr
  split at hpr
  · exact absurd hpr (List.not_mem_nil pr)
  · split at hpr
    · exact absurd hpr (List.not_mem_nil pr)
    · rcases List.mem_append.mp hpr with h | h
      · obtain ⟨o, -, rfl⟩ := List.mem_map.mp h
        rfl
      · obtain ⟨o, -, rfl⟩ := List.mem_map.mp h
        rfl

/-- If every pair before p is present in the reference dictionary and p is
absent, the Phase 1 loop aborts at p with a KeyError, the pairs after p never
being evaluated: the cancellations performed all belong to the pairs before
p. -/
theorem run1_abort (inp : Inputs) (f : String → Option (ℚ × ℚ)) (ps1 : List String) :
    ∀ (st : St) (acc : List (String × String)) (p : String) (ps2 : List String),
      (∀ q ∈ ps1, (f q).isSome) → f p = none →
      ∃ st1 cs1, run_pairs (step1 inp f) (st, acc) (ps1 ++ p :: ps2) =
          ((st1, cs1), some (.key_error p)) ∧
        ∀ pr ∈ cs1, pr ∈ acc ∨ pr.1 ∈ ps1 := by
  induction ps1 with
  | nil =>
    intro st acc p ps2 _ hp
    refine ⟨st, acc, ?_, fun pr hpr => Or.inl hpr⟩
    rw [List.nil_append, run_pairs]
    have hstep : step1 inp f (st, acc) p = .error (.key_error p) := by
      unfold step1
      dsimp only
      rw [phase1_pair_none inp f st p hp]
    rw [hstep]
  | cons q qs ih =>
    intro st acc p ps2 hall hp
    have hq : (f q).isSome := hall q (List.mem_cons_self q qs)
    obtain ⟨bid, ask, hfq⟩ : ∃ bid ask, f q = some (bid, ask) := by
      rcases hfq : f q with _ | ⟨bid, ask⟩
      · rw [hfq] at hq
        exact absurd hq (by simp)
      · exact ⟨bid, ask, rfl⟩
    obtain ⟨st', hok, -⟩ := phase1_pair_some_ok inp f st q bid ask hfq
    have hstep : step1 inp f (st, acc) q = .ok (st', acc ++ phase1_cs inp f q) := by
      unfold step1
      dsimp only
      rw [hok]
    rw [List.cons_append, run_pairs, hstep]
    obtain ⟨st1, cs1, hrun, hmem⟩ :=
      ih st' (acc ++ phase1_cs inp f q) p ps2
        (fun r hr => hall r (List.mem_cons_of_mem q hr)) hp
    refine ⟨st1, cs1, hrun, ?_⟩
    intro pr hpr
    rcases hmem pr hpr with hin | hin
    · rcases List.mem_append.mp hin with h | h
      · exact Or.inl h
      · exact Or.inr (by
          rw [phase1_cs_fst inp f q pr h]
          exact List.mem_cons_self q qs)
    · exact Or.inr (List.mem_cons_of_mem q hin)

def c8_f : String → Option (ℚ × ℚ) :=
  fun q => if q = "BBB-BTC" then some (mkRat 1 1000, mkRat 11 10000) else none

def c8_f_full : String → Option (ℚ × ℚ) :=
  fun _ => some (mkRat 1 1000, mkRat 11 10000)

def c8_inp : Inputs :=
  { pairs := ["AAA-BTC", "BBB-BTC"]
    feed_started := true
    payload := .parsed c8_f
    orderbook_bid := fun _ => mkRat 1 1000
    orderbook_ask := fun _ => mkRat 12 10000
    buy_orders := fun q => if q = "BBB-BTC" then [⟨"o1", mkRat 105 100000⟩] else []
    sell_orders := fun _ => []
    available_balance := fun _ => 1
    now := 10 }

def c8_inp_full : Inputs :=
  { c8_inp with payload := .parsed c8_f_full }

/-- Claim C8 is false on the code: there is no per-pair error isolation.  With
the pair "AAA-BTC" absent from the reference dictionary and iterated first, the
KeyError aborts the whole cycle: the unprofitable buy order of "BBB-BTC", which
the very same cycle cancels when the dictionary is complete, is not cancelled
at all. -/
theorem C8_counterexample_abort :
    c8_f ("AAA-BTC") = none ∧
    (on_tick c8_inp_full (init_state 0)).2.cancels_unprofitable = [("BBB-BTC", "o1")] ∧
    (on_tick c8_inp (init_state 0)).2.err = some (.key_error ("AAA-BTC")) ∧
    (on_tick c8_inp (init_state 0)).2.cancels_unprofitable = [] := by
  decide

/-- Claim C8 amended: an error while evaluating one pair (here: the pair absent
from the reference-price dictionary) aborts the whole cycle; the pairs after it
are not evaluated, and every cancellation performed belongs to a pair iterated
before the failing one. -/
theorem C8_amended_error_aborts_cycle (inp : Inputs) (f : String → Option (ℚ × ℚ))
    (st : St) (ps1 ps2 : List String) (p : String)
    (hs : inp.feed_started = true)
    (hpay : inp.payload = .parsed f)
    (hpairs : inp.pairs = ps1 ++ p :: ps2)
    (hall : ∀ q ∈ ps1, (f q).isSome)
    (hp : f p = none) :
    (on_tick inp st).2.err = some (.key_error p) ∧
    ∀ pr ∈ (on_tick inp st).2.cancels_unprofitable, pr.1 ∈ ps1 := by
  unfold on_tick
  have hs' : ¬ inp.feed_started = false := by
    rw [hs]
    simp
  rw [if_neg hs', hpay]
  dsimp only
  rw [hpairs]
  obtain ⟨st1, cs1, hrun, hmem⟩ := run1_abort inp f ps1 st [] p ps2 hall hp
  rw [hrun]
  refine ⟨rfl, ?_⟩
  intro pr hpr
  rcases hmem pr hpr with h | h
  · exact absurd h (List.not_mem_nil pr)
  · exact h

def c8_inp2 : Inputs :=
  { c8_inp with pairs := ["BBB-BTC", "AAA-BTC"] }

/-- Witness for the amended C8: with "BBB-BTC" iterated before the missing
"AAA-BTC", the cycle still ends in the KeyError. -/
theorem C8_amended_error_aborts_cycle_witness :
    (on_tick c8_inp2 (init_state 0)).2.err = some (.key_error ("AAA-BTC")) :=
  (C8_amended_error_aborts_cycle c8_inp2 c8_f (init_state 0) ["BBB-BTC"] []
    ("AAA-BTC") rfl rfl rfl (by decide) (by decide)).1

/-! ### Claim C10: startup debounce and the inertness of last_cancel_time -/

theorem run1_lot (inp : Inputs) (f : String → Option (ℚ × ℚ)) (ps : List String) :
    ∀ (st : St) (acc : List (String × String)),
      (run_pairs (step1 inp f) (st, acc) ps).1.1.last_order_time = st.last_order_time := by
  induction ps with
  | nil =>
    intro st acc
    rfl
  | cons q qs ih =>
    intro st acc
    rw [run_pairs]
    rcases hfq : f q with _ | ⟨bid, ask⟩
    · rw [show step1 inp f (st, acc) q = .error (.key_error q) from by
        unfold step1
        dsimp only
        rw [phase1_pair_none inp f st q hfq]]
    · obtain ⟨st', hok, hlot⟩ := phase1_pair_some_ok inp f st q bid ask hfq
      rw [show step1 inp f (st, acc) q = .ok (st', acc ++ phase1_cs inp f q) from by
        unfold step1
        dsimp only
        rw [hok]]
      rw [ih st' _, hlot]

theorem run2_lot (inp : Inputs) (f : String → Option (ℚ × ℚ)) (ps : List String) :
    ∀ (st : St) (acc : List (String × String)),
      (run_pairs (step2 inp f) (st, acc) ps).1.1.last_order_time = st.last_order_time := by
  induction ps with
  | nil =>
    intro st acc
    rfl
  | cons q qs ih =>
    intro st acc
    rw [run_pairs]
    rcases hfq : f q with _ | ⟨bid, ask⟩
    · rw [show step2 inp f (st, acc) q = .error (.key_error q) from by
        unfold step2
        dsimp only
        rw [phase2_pair_none inp f st q hfq]]
    · obtain ⟨st', hok, hlot⟩ := phase2_pair_some_ok inp f st q bid ask hfq
      rw [show step2 inp f (st, acc) q = .ok (st', acc ++ phase2_cs inp f q) from by
        unfold step2
        dsimp only
        rw [hok]]
      rw [ih st' _, hlot]

theorem run1_sim (inp : Inputs) (f : String → Option (ℚ × ℚ)) (ps : List String) :
    ∀ (st sta : St) (acc : List (String × String)),
      st.last_order_time = sta.last_order_time →
      (run_pairs (step1 inp f) (st, acc) ps).1.2 =
        (run_pairs (step1 inp f) (sta, acc) ps).1.2 ∧
      (run_pairs (step1 inp f) (st, acc) ps).2 =
        (run_pairs (step1 inp f) (sta, acc) ps).2 := by
  induction ps with
  | nil =>
    intro st sta acc h
    exact ⟨rfl, rfl⟩
  | cons q qs ih =>
    intro st sta acc h
    rw [run_pairs, run_pairs]
    rcases hfq : f q with _ | ⟨bid, ask⟩
    · rw [show step1 inp f (st, acc) q = .error (.key_error q) from by
          unfold step1
          dsimp only
          rw [phase1_pair_none inp f st q hfq],
        show step1 inp f (sta, acc) q = .error (.key_error q) from by
          unfold step1
          dsimp only
          rw [phase1_pair_none inp f sta q hfq]]
      exact ⟨rfl, rfl⟩
    · obtain ⟨st', hok, hlot⟩ := phase1_pair_some_ok inp f st q bid ask hfq
      obtain ⟨sta', hoka, hlota⟩ := phase1_pair_some_ok inp f sta q bid ask hfq
      rw [show step1 inp f (st, acc) q = .ok (st', acc ++ phase1_cs inp f q) from by
          unfold step1
          dsimp only
          rw [hok],
        show step1 inp f (sta, acc) q = .ok (sta', acc ++ phase1_cs inp f q) from by
          unfold step1
          dsimp only
          rw [hoka]]
      exact ih st' sta' _ (by rw [hlot, hlota, h])

theorem run2_sim (inp : Inputs) (f : String → Option (ℚ × ℚ)) (ps : List String) :
    ∀ (st sta : St) (acc : List (String × String)),
      st.last_order_time = sta.last_order_time →
      (run_pairs (step2 inp f) (st, acc) ps).1.2 =
        (run_pairs (step2 inp f) (sta, acc) ps).1.2 ∧
      (run_pairs (step2 inp f) (st, acc) ps).2 =
        (run_pairs (step2 inp f) (sta, acc) ps).2 := by
  induction ps with
  | nil =>
    intro st sta acc h
    exact ⟨rfl, rfl⟩
  | cons q qs ih =>
    intro st sta acc h
    rw [run_pairs, run_pairs]
    rcases hfq : f q with _ | ⟨bid, ask⟩
    · rw [show step2 inp f (st, acc) q = .error (.key_error q) from by
          unfold step2
          dsimp only
          rw [phase2_pair_none inp f st q hfq],
        show step2 inp f (sta, acc) q = .error (.key_error q) from by
          unfold step2
          dsimp only
          rw [phase2_pair_none inp f sta q hfq]]
      exact ⟨rfl, rfl⟩
    · obtain ⟨st', hok, hlot⟩ := phase2_pair_some_ok inp f st q bid ask hfq
      obtain ⟨sta', hoka, hlota⟩ := phase2_pair_some_ok inp f sta q bid ask hfq
      rw [show step2 inp f (st, acc) q = .ok (st', acc ++ phase2_cs inp f q) from by
          unfold step2
          dsimp only
          rw [hok],
        show step2 inp f (sta, acc) q = .ok (sta', acc ++ phase2_cs inp f q) from by
          unfold step2
          dsimp only
          rw [hoka]]
      exact ih st' sta' _ (by rw [hlot, hlota, h])

/-- When every pair still carries the startup last_order_time t0 and the cycle
runs before t0 + 5, every pair of the Phase 3 loop is debounce-skipped: the
state is untouched, no proposal is accepted and skip_time counts every pair. -/
theorem run3_all_time_skipped (inp : Inputs) (f : String → Option (ℚ × ℚ))
    (ps : List String) :
    ∀ (st : St) (acc : P3Eff) (t0 : ℚ),
      acc.proposals = [] →
      (∀ q, st.last_order_time q = t0) →
      inp.now < t0 + time_between_orders_for_trading_pair →
      (run_pairs (step3 inp f) (st, acc) ps).1.1 = st ∧
      (run_pairs (step3 inp f) (st, acc) ps).1.2.proposals = [] ∧
      (run_pairs (step3 inp f) (st, acc) ps).1.2.skip_time = acc.skip_time + ps.length ∧
      (run_pairs (step3 inp f) (st, acc) ps).2 = none := by
  induction ps with
  | nil =>
    intro st acc t0 hacc hlot hnow
    exact ⟨rfl, hacc, rfl, rfl⟩
  | cons q qs ih =>
    intro st acc t0 hacc hlot hnow
    have hcond : inp.now < qadd (st.last_order_time q) time_between_orders_for_trading_pair := by
      rw [qadd_eq, hlot q]
      exact hnow
    have hn : ¬ 0 < acc.proposals.length := by
      simp [hacc]
    have hpair : phase3_pair inp f st acc.proposals.length q = .ok (st, ⟨[], 0, 1, 0, 0⟩) := by
      unfold phase3_pair
      rw [if_neg hn, if_pos hcond]
    have hstep : step3 inp f (st, acc) q = .ok (st,
        ⟨acc.proposals ++ [], acc.skip_count + 0, acc.skip_time + 1,
         acc.skip_distance + 0, acc.skip_balance + 0⟩) := by
      unfold step3
      dsimp only
      rw [hpair]
    rw [run_pairs, hstep]
    obtain ⟨ha, hb, hc, hd⟩ := ih st
      (⟨acc.proposals ++ [], acc.skip_count + 0, acc.skip_time + 1,
        acc.skip_distance + 0, acc.skip_balance + 0⟩ : P3Eff) t0
      (by
        show acc.proposals ++ [] = []
        rw [hacc]
        rfl)
      hlot hnow
    refine ⟨ha, hb, ?_, hd⟩
    rw [hc]
    show acc.skip_time + 1 + qs.length = acc.skip_time + (qs.length + 1)
    omega

theorem phase3_buy_sim (inp : Inputs) (st sta : St) (p q : String) (bpm : ℚ)
    (h : st.last_order_time = sta.last_order_time) :
    (∃ e, phase3_buy inp st p q bpm = .error e ∧ phase3_buy inp sta p q bpm = .error e) ∨
    (∃ st' sta' rest, phase3_buy inp st p q bpm = .ok (st', rest) ∧
      phase3_buy inp sta p q bpm = .ok (sta', rest) ∧
      st'.last_order_time = sta'.last_order_time) := by
  unfold phase3_buy
  by_cases h1 : (inp.buy_orders p).length = 0 ∧ p ≠ "IRIS-BTC"
  · rw [if_pos h1, if_pos h1]
    by_cases h2 : inp.orderbook_bid p > qmul bpm (qadd 1 buy_place_max_distance)
    · rw [if_pos h2, if_pos h2]
      exact Or.inr ⟨st, sta, _, rfl, rfl, h⟩
    · rw [if_neg h2, if_neg h2]
      dsimp only
      rcases hq : quote_curs q with _ | s
      · exact Or.inl ⟨_, rfl, rfl⟩
      · dsimp only
        by_cases h3 : buy_price_sel bpm (inp.orderbook_bid p) = 0
        · rw [if_pos h3, if_pos h3]
          exact Or.inl ⟨_, rfl, rfl⟩
        · rw [if_neg h3, if_neg h3]
          by_cases h4 : qdiv (qmul s size_multiple) (buy_price_sel bpm (inp.orderbook_bid p)) <
              qmul (qdiv (inp.available_balance q) (buy_price_sel bpm (inp.orderbook_bid p)))
                (mkRat 99 100)
          · rw [if_pos h4, if_pos h4]
            refine Or.inr ⟨_, _, _, rfl, rfl, ?_⟩
            show (fun q' => if q' = p then inp.now else st.last_order_time q') =
                 (fun q' => if q' = p then inp.now else sta.last_order_time q')
            rw [h]
          · rw [if_neg h4, if_neg h4]
            exact Or.inr ⟨st, sta, _, rfl, rfl, h⟩
  · rw [if_neg h1, if_neg h1]
    exact Or.inr ⟨st, sta, _, rfl, rfl, h⟩

theorem phase3_sell_sim (inp : Inputs) (st sta : St) (p bc q : String) (spm : ℚ)
    (h : st.last_order_time = sta.last_order_time) :
    (∃ e, phase3_sell inp st p bc q spm = .error e ∧ phase3_sell inp sta p bc q spm = .error e) ∨
    (∃ st' sta' rest, phase3_sell inp st p bc q spm = .ok (st', rest) ∧
      phase3_sell inp sta p bc q spm = .ok (sta', rest) ∧
      st'.last_order_time = sta'.last_order_time) := by
  unfold phase3_sell
  by_cases h1 : (inp.sell_orders p).length = 0
  · rw [if_pos h1, if_pos h1]
    by_cases h2 : inp.orderbook_ask p < qmul spm (qsub 1 sell_place_max_distance)
    · rw [if_pos h2, if_pos h2]
      exact Or.inr ⟨st, sta, _, rfl, rfl, h⟩
    · rw [if_neg h2, if_neg h2]
      dsimp only
      rcases hq : quote_curs q with _ | s
      · exact Or.inl ⟨_, rfl, rfl⟩
      · dsimp only
        by_cases h3 : inp.available_balance bc ≥ s
        · rw [if_pos h3, if_pos h3]
          refine Or.inr ⟨_, _, _, rfl, rfl, ?_⟩
          show (fun q' => if q' = p then inp.now else st.last_order_time q') =
               (fun q' => if q' = p then inp.now else sta.last_order_time q')
          rw [h]
        · rw [if_neg h3, if_neg h3]
          exact Or.inr ⟨st, sta, _, rfl, rfl, h⟩
  · rw [if_neg h1, if_neg h1]
    exact Or.inr ⟨st, sta, _, rfl, rfl, h⟩

theorem phase3_pair_sim (inp : Inputs) (f : String → Option (ℚ × ℚ)) (st sta : St)
    (n : ℕ) (p : String) (h : st.last_order_time = sta.last_order_time) :
    (∃ e, phase3_pair inp f st n p = .error e ∧ phase3_pair inp f sta n p = .error e) ∨
    (∃ st' sta' eff, phase3_pair inp f st n p = .ok (st', eff) ∧
      phase3_pair inp f sta n p = .ok (sta', eff) ∧
      st'.last_order_time = sta'.last_order_time) := by
  unfold phase3_pair
  by_cases hn : 0 < n
  · rw [if_pos hn, if_pos hn]
    exact Or.inr ⟨st, sta, _, rfl, rfl, h⟩
  · rw [if_neg hn, if_neg hn]
    by_cases ht : inp.now < qadd (st.last_order_time p) time_between_orders_for_trading_pair
    · have hta : inp.now < qadd (sta.last_order_time p) time_between_orders_for_trading_pair := by
        rw [← h]
        exact ht
      rw [if_pos ht, if_pos hta]
      exact Or.inr ⟨st, sta, _, rfl, rfl, h⟩
    · have hta : ¬ inp.now < qadd (sta.last_order_time p) time_between_orders_for_trading_pair := by
        rw [← h]
        exact ht
      rw [if_neg ht, if_neg hta]
      rcases hf : f p with _ | ⟨bid, ask⟩
      · exact Or.inl ⟨_, rfl, rfl⟩
      · dsimp only
        rcases hsp : split_pair p with _ | ⟨b0, t0⟩
        · exact Or.inl ⟨_, rfl, rfl⟩
        · rcases t0 with _ | ⟨q0, t1⟩
          · exact Or.inl ⟨_, rfl, rfl⟩
          · rcases t1 with _ | ⟨r0, t2⟩
            · dsimp only
              rcases phase3_buy_sim inp st sta p q0 (qmul bid (qsub 1 buy_place_ratio)) h with
                ⟨e, hb1, hb2⟩ | ⟨st', sta', ⟨cands1, d1, b1⟩, hb1, hb2, hrel⟩
              · rw [hb1, hb2]
                exact Or.inl ⟨e, rfl, rfl⟩
              · rw [hb1, hb2]
                dsimp only
                rcases phase3_sell_sim inp st' sta' p b0 q0 (qmul ask (qadd 1 sell_place_ratio))
                    hrel with
                  ⟨e, hs1, hs2⟩ | ⟨st2, sta2, ⟨cands2, d2, b2⟩, hs1, hs2, hrel2⟩
                · rw [hs1, hs2]
                  exact Or.inl ⟨e, rfl, rfl⟩
                · rw [hs1, hs2]
                  exact Or.inr ⟨st2, sta2, _, rfl, rfl, hrel2⟩
            · exact Or.inl ⟨_, rfl, rfl⟩

theorem run3_sim (inp : Inputs) (f : String → Option (ℚ × ℚ)) (ps : List String) :
    ∀ (st sta : St) (acc : P3Eff),
      st.last_order_time = sta.last_order_time →
      (run_pairs (step3 inp f) (st, acc) ps).1.2 =
        (run_pairs (step3 inp f) (sta, acc) ps).1.2 ∧
      (run_pairs (step3 inp f) (st, acc) ps).2 =
        (run_pairs (step3 inp f) (sta, acc) ps).2 ∧
      (run_pairs (step3 inp f) (st, acc) ps).1.1.last_order_time =
        (run_pairs (step3 inp f) (sta, acc) ps).1.1.last_order_time := by
  induction ps with
  | nil =>
    intro st sta acc h
    exact ⟨rfl, rfl, h⟩
  | cons q qs ih =>
    intro st sta acc h
    rw [run_pairs, run_pairs]
    rcases phase3_pair_sim inp f st sta acc.proposals.length q h with
      ⟨e, h1, h2⟩ | ⟨st', sta', eff, h1, h2, hrel⟩
    · rw [show step3 inp f (st, acc) q = .error e from by
          unfold step3
          dsimp only
          rw [h1],
        show step3 inp f (sta, acc) q = .error e from by
          unfold step3
          dsimp only
          rw [h2]]
      exact ⟨rfl, rfl, h⟩
    · rw [show step3 inp f (st, acc) q = .ok (st',
            ⟨acc.proposals ++ eff.proposals, acc.skip_count + eff.skip_count,
             acc.skip_time + eff.skip_time, acc.skip_distance + eff.skip_distance,
             acc.skip_balance + eff.skip_balance⟩) from by
          unfold step3
          dsimp only
          rw [h1],
        show step3 inp f (sta, acc) q = .ok (sta',
            ⟨acc.proposals ++ eff.proposals, acc.skip_count + eff.skip_count,
             acc.skip_time + eff.skip_time, acc.skip_distance + eff.skip_distance,
             acc.skip_balance + eff.skip_balance⟩) from by
          unfold step3
          dsimp only
          rw [h2]]
      exact ih st' sta' _ hrel

/-- The cycle's observable outcome and its final last_order_time never depend
on last_cancel_time: last_cancel_time is write-only state. -/
theorem on_tick_sim (inp : Inputs) (st sta : St)
    (h : st.last_order_time = sta.last_order_time) :
    (on_tick inp st).2 = (on_tick inp sta).2 ∧
    (on_tick inp st).1.last_order_time = (on_tick inp sta).1.last_order_time := by
  unfold on_tick
  by_cases hs : inp.feed_started = false
  · rw [if_pos hs, if_pos hs]
    exact ⟨rfl, h⟩
  · rw [if_neg hs, if_neg hs]
    cases hpay : inp.payload with
    | not_a_string => exact ⟨rfl, h⟩
    | bad_json => exact ⟨rfl, h⟩
    | parsed f =>
      dsimp only
      obtain ⟨hcs1, he1⟩ := run1_sim inp f inp.pairs st sta [] h
      have hlot1 : (run_pairs (step1 inp f) (st, []) inp.pairs).1.1.last_order_time =
          (run_pairs (step1 inp f) (sta, []) inp.pairs).1.1.last_order_time := by
        rw [run1_lot, run1_lot, h]
      rcases hr1 : run_pairs (step1 inp f) (st, []) inp.pairs with ⟨⟨st1, cs1⟩, e1⟩
      rcases hr1a : run_pairs (step1 inp f) (sta, []) inp.pairs with ⟨⟨st1a, cs1a⟩, e1a⟩
      rw [hr1, hr1a] at hcs1 he1 hlot1
      dsimp only at hcs1 he1 hlot1
      subst hcs1
      subst he1
      cases e1 with
      | some e => exact ⟨rfl, hlot1⟩
      | none =>
        dsimp only
        by_cases h1 : 0 < cs1.length
        · rw [if_pos h1, if_pos h1]
          dsimp only
          rw [if_pos (Or.inl h1 : 0 < cs1.length ∨ 0 < ([] : List (String × String)).length),
            if_pos (Or.inl h1 : 0 < cs1.length ∨ 0 < ([] : List (String × String)).length)]
          exact ⟨rfl, hlot1⟩
        · rw [if_neg h1, if_neg h1]
          obtain ⟨hcs2, he2⟩ := run2_sim inp f inp.pairs st1 st1a [] hlot1
          have hlot2 : (run_pairs (step2 inp f) (st1, []) inp.pairs).1.1.last_order_time =
              (run_pairs (step2 inp f) (st1a, []) inp.pairs).1.1.last_order_time := by
            rw [run2_lot, run2_lot, hlot1]
          rcases hr2 : run_pairs (step2 inp f) (st1, []) inp.pairs with ⟨⟨st2, cs2⟩, e2⟩
          rcases hr2a : run_pairs (step2 inp f) (st1a, []) inp.pairs with ⟨⟨st2a, cs2a⟩, e2a⟩
          rw [hr2, hr2a] at hcs2 he2 hlot2
          dsimp only at hcs2 he2 hlot2
          subst hcs2
          subst he2
          cases e2 with
          | some e => exact ⟨rfl, hlot2⟩
          | none =>
            dsimp only
            by_cases h2 : 0 < cs1.length ∨ 0 < cs2.length
            · rw [if_pos h2, if_pos h2]
              exact ⟨rfl, hlot2⟩
            · rw [if_neg h2, if_neg h2]
              obtain ⟨hacc, he3, hlot3⟩ := run3_sim inp f inp.pairs st2 st2a ⟨[], 0, 0, 0, 0⟩ hlot2
              rcases hr3 : run_pairs (step3 inp f) (st2, ⟨[], 0, 0, 0, 0⟩) inp.pairs with
                ⟨⟨st3, acc⟩, e3⟩
              rcases hr3a : run_pairs (step3 inp f) (st2a, ⟨[], 0, 0, 0, 0⟩) inp.pairs with
                ⟨⟨st3a, acca⟩, e3a⟩
              rw [hr3, hr3a] at hacc he3 hlot3
              dsimp only at hacc he3 hlot3
              subst hacc
              subst he3
              exact ⟨rfl, hlot3⟩

/-- Claim C10: with the startup state (last_order_time = t0 for every pair,
last_cancel_time = 0), a cycle running before t0 + 5 seconds accepts no
proposal, and when Phase 3 actually runs (feed started, payload parsed, no
error, no Phase 1 or Phase 2 cancellation) every pair is recorded as a
time-debounce skip; last_cancel_time never gates anything: the cycle's outcome
and final last_order_time are identical for any two values of it. -/
theorem C10_startup_debounce (inp : Inputs) (f : String → Option (ℚ × ℚ)) (t0 : ℚ)
    (lc lca : String → ℚ) :
    (inp.now < t0 + time_between_orders_for_trading_pair →
      (on_tick inp (init_state t0)).2.proposals = [] ∧
      (inp.feed_started = true → inp.payload = .parsed f →
        (on_tick inp (init_state t0)).2.err = none →
        (on_tick inp (init_state t0)).2.cancels_unprofitable = [] →
        (on_tick inp (init_state t0)).2.cancels_outbid = [] →
        (on_tick inp (init_state t0)).2.skip_time = inp.pairs.length)) ∧
    ((on_tick inp ⟨lc, fun _ => t0⟩).2 = (on_tick inp ⟨lca, fun _ => t0⟩).2 ∧
     (on_tick inp ⟨lc, fun _ => t0⟩).1.last_order_time =
       (on_tick inp ⟨lca, fun _ => t0⟩).1.last_order_time) := by
  constructor
  · intro hnow
    unfold on_tick
    by_cases hs : inp.feed_started = false
    · rw [if_pos hs]
      refine ⟨rfl, fun hsT _ _ _ _ => ?_⟩
      rw [hs] at hsT
      exact Bool.noConfusion hsT
    · rw [if_neg hs]
      cases hpay : inp.payload with
      | not_a_string =>
        refine ⟨rfl, fun _ hpars _ _ _ => ?_⟩
        exact Payload.noConfusion hpars
      | bad_json =>
        refine ⟨rfl, fun _ hpars _ _ _ => ?_⟩
        exact Payload.noConfusion hpars
      | parsed f0 =>
        dsimp only
        rcases hr1 : run_pairs (step1 inp f0) (init_state t0, []) inp.pairs with ⟨⟨st1, cs1⟩, e1⟩
        have hlot1 : st1.last_order_time = (init_state t0).last_order_time := by
          have hh := run1_lot inp f0 inp.pairs (init_state t0) []
          rw [hr1] at hh
          exact hh
        cases e1 with
        | some e =>
          refine ⟨rfl, fun _ _ herr _ _ => ?_⟩
          exact Option.noConfusion herr
        | none =>
          dsimp only
          by_cases h1 : 0 < cs1.length
          · rw [if_pos h1]
            dsimp only
            rw [if_pos (Or.inl h1 : 0 < cs1.length ∨ 0 < ([] : List (String × String)).length)]
            refine ⟨rfl, fun _ _ _ hcs _ => ?_⟩
            have hcs' : cs1 = [] := hcs
            rw [hcs'] at h1
            exact absurd h1 (lt_irrefl 0)
          · rw [if_neg h1]
            rcases hr2 : run_pairs (step2 inp f0) (st1, []) inp.pairs with ⟨⟨st2, cs2⟩, e2⟩
            have hlot2 : st2.last_order_time = (init_state t0).last_order_time := by
              have hh := run2_lot inp f0 inp.pairs st1 []
              rw [hr2] at hh
              rw [hh, hlot1]
            cases e2 with
            | some e =>
              refine ⟨rfl, fun _ _ herr _ _ => ?_⟩
              exact Option.noConfusion herr
            | none =>
              dsimp only
              by_cases h2 : 0 < cs1.length ∨ 0 < cs2.length
              · rw [if_pos h2]
                refine ⟨rfl, fun _ _ _ hcs1 hcs2 => ?_⟩
                have hcs1' : cs1 = [] := hcs1
                have hcs2' : cs2 = [] := hcs2
                rw [hcs1', hcs2'] at h2
                rcases h2 with hx | hx <;> simp at hx
              · rw [if_neg h2]
                obtain ⟨ha, hb, hc, hd⟩ := run3_all_time_skipped inp f0 inp.pairs st2
                  ⟨[], 0, 0, 0, 0⟩ t0 rfl
                  (fun q => by rw [hlot2]; rfl) hnow
                rcases hr3 : run_pairs (step3 inp f0) (st2, ⟨[], 0, 0, 0, 0⟩) inp.pairs with
                  ⟨⟨st3, acc⟩, e3⟩
                rw [hr3] at ha hb hc hd
                dsimp only at ha hb hc hd
                refine ⟨hb, fun _ _ _ _ _ => ?_⟩
                rw [hc]
                show 0 + inp.pairs.length = inp.pairs.length
                exact Nat.zero_add _
  · exact on_tick_sim inp ⟨lc, fun _ => t0⟩ ⟨lca, fun _ => t0⟩ rfl

def c10_inp : Inputs :=
  { pairs := ["ADA-BTC"]
    feed_started := true
    payload := .parsed c4_f
    orderbook_bid := fun _ => mkRat 1 1000
    orderbook_ask := fun _ => mkRat 12 10000
    buy_orders := fun _ => []
    sell_orders := fun _ => []
    available_balance := fun _ => 1
    now := 3 }

/-- Witness for C10: three seconds after a startup at t0 = 0, the cycle accepts
no proposal, its single pair is recorded as a time-debounce skip, and two runs
differing only in last_cancel_time agree on everything observable. -/
theorem C10_startup_debounce_witness :
    (on_tick c10_inp (init_state 0)).2.proposals = [] ∧
    (on_tick c10_inp (init_state 0)).2.skip_time = c10_inp.pairs.length ∧
    ((on_tick c10_inp ⟨fun _ => 7, fun _ => 0⟩).2 =
      (on_tick c10_inp ⟨fun _ => 9, fun _ => 0⟩).2 ∧
     (on_tick c10_inp ⟨fun _ => 7, fun _ => 0⟩).1.last_order_time =
      (on_tick c10_inp ⟨fun _ => 9, fun _ => 0⟩).1.last_order_time) := by
  have h := C10_startup_debounce c10_inp c4_f 0 (fun _ => 7) (fun _ => 9)
  have h5 : c10_inp.now < 0 + time_between_orders_for_trading_pair := by
    show (3 : ℚ) < 0 + 5
    norm_num
  exact ⟨(h.1 h5).1, (h.1 h5).2 rfl rfl (by decide) (by decide) (by decide), h.2⟩

end SimplePMM
